import Mathlib

/-!
Shallow embedding of the per-tenant monitor/follower orchestration engine
(`backend/binance_follow_service.py` and `backend/monitor_service.py`).

Conventions of the embedding:
* Python floats are modelled as exact rationals (`ℚ`); the decimal literals of
  the source are read exactly (`1e-8` becomes `1/100000000`).
* A Python value that is fed to `_float_or_zero` is modelled by `PyValue`:
  absent (`None`), a number, a numeric string (already carrying the number it
  parses to) or an unparseable value.
* `dict.get` of a possibly missing key is modelled with `Option`.
* Side effects (persisting a status row, starting/stopping a thread, placing an
  order, logging a warning) are returned explicitly as data.
-/

namespace PyStr

/-!
Executable models of the Python string operations the services use
(`str.lower`, `str.upper`, `str.strip`, `str.replace`, `str.endswith`,
`re.split`). They are written by structural recursion over `String.data` so
that a concrete input can be evaluated inside a proof. ASCII case mapping is
assumed (wallet addresses, coin symbols and mode names are ASCII).
-/

/-- The whitespace characters of Python's `str.strip` / regex `\s`
(ASCII range). -/
def isPySpace (c : Char) : Bool :=
  c = ' ' ∨ c = '\t' ∨ c = '\n' ∨ c = '\r' ∨ c = '\x0b' ∨ c = '\x0c'

/-- `str.lower` (ASCII). -/
def pyLower (s : String) : String := ⟨s.data.map Char.toLower⟩

/-- `str.upper` (ASCII). -/
def pyUpper (s : String) : String := ⟨s.data.map Char.toUpper⟩

/-- Drop leading and trailing Python whitespace from a character list. -/
def trimList (l : List Char) : List Char :=
  ((l.dropWhile isPySpace).reverse.dropWhile isPySpace).reverse

/-- `str.strip()`. -/
def pyStrip (s : String) : String := ⟨trimList s.data⟩

/-- One left-to-right replacement pass with explicit fuel (the fuel is the
length of the scanned list, which bounds the number of steps). -/
def replaceFuel (pat rep : List Char) : ℕ → List Char → List Char
  | _, [] => []
  | 0, l => l
  | fuel + 1, c :: cs =>
    if List.isPrefixOf pat (c :: cs) then
      rep ++ replaceFuel pat rep fuel (List.drop pat.length (c :: cs))
    else c :: replaceFuel pat rep fuel cs

/-- `str.replace(pat, rep)` for a non-empty pattern (the services only replace
the literal `"PERP"`). -/
def pyReplace (s pat rep : String) : String :=
  if pat = "" then s
  else ⟨replaceFuel pat.data rep.data s.data.length s.data⟩

/-- `str.endswith(post)`. -/
def pyEndsWith (s post : String) : Bool := List.isSuffixOf post.data s.data

/-- Split a character list at every character satisfying `p`; adjacent
separators yield empty fragments (the callers filter those out, which makes
this agree with Python's `re.split` on a `[...]+` class). -/
def splitList (p : Char → Bool) : List Char → List (List Char)
  | [] => [[]]
  | c :: cs =>
    match splitList p cs with
    | [] => [[c]]
    | t :: ts => if p c then [] :: t :: ts else (c :: t) :: ts

/-- A separator character of the wallet-address list:
regex class `[\s,;]`. -/
def isAddrSep (c : Char) : Bool := isPySpace c ∨ c = ',' ∨ c = ';'

/-- `re.split(r"[\s,;]+", s)`, up to empty fragments (filtered by the caller). -/
def pySplitAddrs (s : String) : List String :=
  (splitList isAddrSep s.data).map (fun l => ⟨l⟩)

end PyStr

namespace Follow

open PyStr

/-- A Python value as consumed by `_float_or_zero`: `none` models `None` or a
missing key, `num q` a numeric value, `strNum q` a string parsing to `q`, and
`strBad` a value whose `float(str(·))` conversion raises. -/
inductive PyValue where
  | none : PyValue
  | num (q : ℚ) : PyValue
  | strNum (q : ℚ) : PyValue
  | strBad (s : String) : PyValue
  deriving DecidableEq

/-- `_float_or_zero` (binance_follow_service.py lines 36-44): coerce a value to
a float, mapping `None` and anything unparseable to `0.0`. -/
def float_or_zero : PyValue → ℚ
  | .none => 0
  | .num q => q
  | .strNum q => q
  | .strBad _ => 0

/-- `FollowSettings` dataclass (binance_follow_service.py lines 47-61).
`api_key`/`api_secret` are `Optional[str]`. -/
structure FollowSettings where
  user_id : ℕ
  enabled : Bool
  wallet_address : String
  mode : String
  amount : ℚ
  stop_loss_amount : ℚ
  max_position : ℚ
  min_order_size : ℚ
  api_key : Option String
  api_secret : Option String
  baseline_balance : Option ℚ
  status : String
  stop_reason : Option String
  deriving DecidableEq

/-- The keyword arguments of one `update_binance_follow_status` call; a `none`
field models an argument that was not passed. -/
structure StatusUpdate where
  enabled : Option Bool
  status : Option String
  stop_reason : Option (Option String)
  baseline_balance : Option ℚ
  deriving DecidableEq

/-- Render a rational with two decimal places, mirroring Python's `f"{x:.2f}"`
on the exact value (rounding to the nearest hundredth). -/
def fmt2 (q : ℚ) : String :=
  let n : ℤ := round (q * 100)
  let sign := if n < 0 then "-" else ""
  let m := n.natAbs
  let r := m % 100
  sign ++ toString (m / 100) ++ "." ++ (if r < 10 then "0" else "") ++ toString r

/-- The stop reason persisted when the breaker trips
(binance_follow_service.py line 306): `f"亏损 {loss:.2f} ≥ 阈值 {threshold:.2f}"`. -/
def stopLossReason (loss threshold : ℚ) : String :=
  "亏损 " ++ fmt2 loss ++ " ≥ 阈值 " ++ fmt2 threshold

/-- Result of one `_check_stop_loss` call: whether it returned `True`
(tripped), the status row it persisted (if any), the in-memory config it left
behind, and whether it called `self.stop()`. -/
structure StopLossResult where
  tripped : Bool
  persisted : Option StatusUpdate
  newConfig : FollowSettings
  workerStopped : Bool
  deriving DecidableEq

/-- `BinanceFollower._check_stop_loss` (binance_follow_service.py lines
282-311) as a pure function of the local config snapshot, whether
`_ensure_client` produced a client, and the balance fetched by
`_fetch_total_wallet_balance` (`none` = fetch failed). -/
def check_stop_loss (cfg : FollowSettings) (clientOk : Bool)
    (fetched : Option ℚ) : StopLossResult :=
  if ¬cfg.enabled ∨ ¬clientOk then ⟨false, Option.none, cfg, false⟩
  else if cfg.stop_loss_amount = 0 ∨ cfg.stop_loss_amount ≤ 0 then
    ⟨false, Option.none, cfg, false⟩
  else
    match cfg.baseline_balance with
    | Option.none => ⟨false, Option.none, cfg, false⟩
    | Option.some baseline =>
      match fetched with
      | Option.none => ⟨false, Option.none, cfg, false⟩
      | Option.some current =>
        let loss := baseline - current
        if cfg.stop_loss_amount ≤ loss then
          ⟨true,
           Option.some ⟨Option.some false, Option.some "stopped_by_loss",
             Option.some (Option.some (stopLossReason loss cfg.stop_loss_amount)),
             Option.none⟩,
           { cfg with enabled := false, stop_reason := Option.some "stop_loss_triggered" },
           true⟩
        else ⟨false, Option.none, cfg, false⟩

/-- A concrete follower configuration with stop-loss threshold 100 and
baseline balance 1000, used to evaluate the stop-loss circuit breaker. -/
def c1cfg : FollowSettings :=
  ⟨7, true, "0xabc", "fixed", 2, 100, 0, 0, Option.some "k", Option.some "s",
    Option.some 1000, "active", Option.none⟩

/-- A position snapshot carried by an event (`previous_position` /
`current_position`); `szi` is the signed size field, possibly missing or
unparseable. -/
structure Position where
  szi : PyValue
  deriving DecidableEq

/-- The `trade_details` dictionary of an event. -/
structure TradeDetails where
  side : Option String
  size : PyValue
  leverage : PyValue
  position_size : PyValue
  deriving DecidableEq

/-- A normalized trade event as consumed by `_process_event`; every field may
be absent. -/
structure TradeEvent where
  address : Option String
  coin : Option String
  event_type : Option String
  trade_details : Option TradeDetails
  previous_position : Option Position
  current_position : Option Position
  deriving DecidableEq

/-- `event.get("trade_details") or {}` when the key is missing: a dictionary
all of whose lookups miss. -/
def emptyDetails : TradeDetails := ⟨Option.none, .none, .none, .none⟩

/-- `_float_or_zero((event.get("..._position") or {}).get("szi"))`. -/
def sziOf : Option Position → ℚ
  | Option.none => float_or_zero .none
  | Option.some p => float_or_zero p.szi

/-- `BinanceFollower._determine_side` (binance_follow_service.py lines
348-364). -/
def determine_side (event_type : Option String) (td : TradeDetails)
    (ev : TradeEvent) : Option String :=
  let side_hint := pyUpper (td.side.getD "")
  if side_hint = "B" then Option.some "BUY"
  else if side_hint = "A" then Option.some "SELL"
  else if event_type = Option.some "opened" then
    let size := sziOf ev.current_position
    Option.some (if size ≥ 0 then "BUY" else "SELL")
  else
    let size := sziOf ev.previous_position
    if event_type = Option.some "reduced" ∨ event_type = Option.some "closed" then
      Option.some (if size > 0 then "SELL" else "BUY")
    else Option.none

/-- `BinanceFollower._calculate_quantity` (binance_follow_service.py lines
328-346). -/
def calculate_quantity (cfg : Option FollowSettings) (td : TradeDetails)
    (ev : TradeEvent) : ℚ :=
  match cfg with
  | Option.none => 0
  | Option.some config =>
    let mode := config.mode
    let size := float_or_zero td.size
    let size :=
      if size ≤ 0 then
        let prev_size := |sziOf ev.previous_position|
        let curr_size := |sziOf ev.current_position|
        let diff := |prev_size - curr_size|
        if diff > 0 then diff else curr_size
      else size
    let size := if size ≤ 0 then |float_or_zero td.position_size| else size
    if mode = "percentage" then
      let percent := config.amount
      max 0 (size * percent / 100)
    else max 0 config.amount

/-- The observed size of C2's fallback chain, written from the claim's words:
prefer the event's explicit trade size, fall back to the absolute difference
between prior and current position size (read as position magnitudes), fall
back to the current position's absolute size, and finally to the trade
details' absolute position-size hint. -/
def observed_size (td : TradeDetails) (ev : TradeEvent) : ℚ :=
  let explicit := float_or_zero td.size
  if 0 < explicit then explicit
  else
    let diff := |(|sziOf ev.previous_position|) - (|sziOf ev.current_position|)|
    if 0 < diff then diff
    else if 0 < |sziOf ev.current_position| then |sziOf ev.current_position|
    else |float_or_zero td.position_size|

/-- The observed size exactly as the claim words it, with only the three
fallback sources the claim lists (no position-size hint). -/
def observed_size_claim (td : TradeDetails) (ev : TradeEvent) : ℚ :=
  let explicit := float_or_zero td.size
  if 0 < explicit then explicit
  else
    let diff := |(|sziOf ev.previous_position|) - (|sziOf ev.current_position|)|
    if 0 < diff then diff
    else |sziOf ev.current_position|

/-- `BinanceFollower._map_symbol` (binance_follow_service.py lines 422-430). -/
def map_symbol (coin : Option String) : Option String :=
  match coin with
  | Option.none => Option.none
  | Option.some c =>
    if c = "" then Option.none
    else
      let coin_str := pyStrip (pyReplace (pyUpper c) "PERP" "")
      if coin_str = "" then Option.none
      else if pyEndsWith coin_str "USDT" then Option.some coin_str
      else Option.some (coin_str ++ "USDT")

/-- `BinanceFollower._check_max_position` (binance_follow_service.py lines
366-389) as a pure function; `positionAmt` is `positions[0].get("positionAmt")`
of a successful non-empty `position_risk` query, `none` when the query failed
or returned no usable list (in which case the order proceeds). Returns `true`
when the order may proceed. -/
def check_max_position (cfg : FollowSettings) (positionAmt : Option PyValue)
    (quantity : ℚ) (event_type : Option String) : Bool :=
  if cfg.max_position = 0 ∨ cfg.max_position ≤ 0 then true
  else if event_type = Option.some "reduced" ∨ event_type = Option.some "closed" then true
  else
    match positionAmt with
    | Option.none => true
    | Option.some v =>
      let position_amt := |float_or_zero v|
      if position_amt + quantity > cfg.max_position + 1 / 100000000 then false
      else true

/-- The external exchange as seen by one pass of the worker: whether
`_ensure_client` yields a client, the account balance a fetch returns, and the
`positionAmt` a position query returns. -/
structure ExchangeEnv where
  clientOk : Bool
  balance : Option ℚ
  positionAmt : Option PyValue
  deriving DecidableEq

/-- Why `_process_event` discarded an event without ordering. -/
inductive SkipReason where
  | notEnabled
  | addressFiltered
  | noSymbol
  | noSide
  | nonPositiveQty
  | belowMinimum
  | noClient
  | overMaxPosition
  deriving DecidableEq

/-- The observable outcome of one `_process_event` call. -/
inductive ProcessOutcome where
  | skipped (r : SkipReason)
  | breakerTripped
  | ordered (symbol side : String) (quantity : ℚ) (reduceOnly : Bool)
  deriving DecidableEq

/-- `BinanceFollower._process_event` (binance_follow_service.py lines 153-204)
up to the placement of the market order (the post-order stop-loss re-check
does not affect whether or what was ordered). -/
def process_event (cfg : Option FollowSettings) (env : ExchangeEnv)
    (ev : TradeEvent) : ProcessOutcome :=
  match cfg with
  | Option.none => .skipped .notEnabled
  | Option.some config =>
    if ¬config.enabled then .skipped .notEnabled
    else
      let address := pyLower (ev.address.getD "")
      if config.wallet_address ≠ "" ∧ address ≠ pyLower config.wallet_address then
        .skipped .addressFiltered
      else if (check_stop_loss config env.clientOk env.balance).tripped then
        .breakerTripped
      else
        match map_symbol ev.coin with
        | Option.none => .skipped .noSymbol
        | Option.some symbol =>
          let trade_details := ev.trade_details.getD emptyDetails
          let event_type := ev.event_type
          match determine_side event_type trade_details ev with
          | Option.none => .skipped .noSide
          | Option.some side =>
            let quantity := calculate_quantity (Option.some config) trade_details ev
            if quantity ≤ 0 then .skipped .nonPositiveQty
            else if config.min_order_size ≠ 0 ∧ quantity < config.min_order_size then
              .skipped .belowMinimum
            else if ¬env.clientOk then .skipped .noClient
            else if ¬check_max_position config env.positionAmt quantity event_type then
              .skipped .overMaxPosition
            else
              .ordered symbol side quantity
                (decide (event_type = Option.some "reduced" ∨
                  event_type = Option.some "closed"))

/-- `queue.Queue(maxsize=1024)` (binance_follow_service.py line 68). -/
def queueCapacity : ℕ := 1024

/-- The mutable state of one `BinanceFollower`. The queue holds
`Optional[Dict]` items: `none` is the stop sentinel. -/
structure FollowerState where
  user_id : ℕ
  config : Option FollowSettings
  queue : List (Option TradeEvent)
  threadId : Option ℕ
  threadAlive : Bool
  clientReady : Bool
  deriving DecidableEq

/-- `BinanceFollower.__init__` for a fresh follower of one tenant. -/
def freshFollower (user_id : ℕ) : FollowerState :=
  ⟨user_id, Option.none, [], Option.none, false, false⟩

/-- `BinanceFollower.enqueue_event` (binance_follow_service.py lines 107-113):
a non-blocking `put_nowait`; a full queue drops the offered event and logs a
warning (the returned flag). -/
def enqueue_event (st : FollowerState) (ev : TradeEvent) :
    FollowerState × Bool :=
  match st.config with
  | Option.none => (st, false)
  | Option.some cfg =>
    if ¬cfg.enabled then (st, false)
    else if st.queue.length < queueCapacity then
      ({ st with queue := st.queue ++ [Option.some ev] }, false)
    else (st, true)

/-- The raw configuration dictionary handed to `_settings_from_dict`
(as loaded from the persistence layer or the REST payload). `enabled` is the
truthiness of `payload.get("enabled")`. -/
structure FollowPayload where
  enabled : Bool
  wallet_address : Option String
  mode : Option String
  amount : Option ℚ
  stop_loss_amount : Option ℚ
  max_position : Option ℚ
  min_order_size : Option ℚ
  api_key : Option String
  api_secret : Option String
  baseline_balance : Option ℚ
  status : Option String
  stop_reason : Option String
  deriving DecidableEq

/-- `payload.get(k) or default` for a string field: a missing or empty value
falls back to the default. -/
def orDefaultStr (v : Option String) (d : String) : String :=
  match v with
  | Option.none => d
  | Option.some s => if s = "" then d else s

/-- `float(payload.get(k) or 0.0)` for a numeric field. -/
def orZero (v : Option ℚ) : ℚ :=
  match v with
  | Option.none => 0
  | Option.some q => q

/-- The mode normalization of `_settings_from_dict` (binance_follow_service.py
lines 467-469): `(payload.get("mode") or "fixed").lower()`, coerced to
`"fixed"` when not one of the two known modes. -/
def normalize_mode (m : Option String) : String :=
  let mode := pyLower (orDefaultStr m "fixed")
  if ¬(mode = "fixed" ∨ mode = "percentage") then "fixed" else mode

/-- `_settings_from_dict` (binance_follow_service.py lines 466-484). -/
def settings_from_dict (user_id : ℕ) (p : FollowPayload) : FollowSettings :=
  let mode := normalize_mode p.mode
  { user_id := user_id
    enabled := p.enabled
    wallet_address := pyLower (p.wallet_address.getD "")
    mode := mode
    amount := orZero p.amount
    stop_loss_amount := orZero p.stop_loss_amount
    max_position := orZero p.max_position
    min_order_size := orZero p.min_order_size
    api_key := p.api_key
    api_secret := p.api_secret
    baseline_balance := p.baseline_balance
    status := orDefaultStr p.status "disabled"
    stop_reason := p.stop_reason }

/-- A percentage-mode configuration with amount 10 (C2's first instance). -/
def c2cfgPct : FollowSettings :=
  ⟨3, true, "", "percentage", 10, 0, 0, 0, Option.some "k", Option.some "s",
    Option.none, "active", Option.none⟩

/-- A fixed-mode configuration with amount 2 (C2's second instance). -/
def c2cfgFixed : FollowSettings :=
  ⟨3, true, "", "fixed", 2, 0, 0, 0, Option.some "k", Option.some "s",
    Option.none, "active", Option.none⟩

/-- An event with no explicit trade size, prior position size 5 and current
position size 8. -/
def c2ev58 : TradeEvent :=
  ⟨Option.some "0xa", Option.some "ETH", Option.some "reduced", Option.none,
    Option.some ⟨.num 5⟩, Option.some ⟨.num 8⟩⟩

/-- An event with no explicit trade size and both position snapshots at zero,
but a position-size hint of 7 in its trade details. -/
def c2tdHint7 : TradeDetails := ⟨Option.none, .none, .none, .num 7⟩

/-- The event carrying `c2tdHint7` with zero position snapshots. -/
def c2evHint7 : TradeEvent :=
  ⟨Option.some "0xa", Option.some "ETH", Option.some "reduced",
    Option.some c2tdHint7, Option.some ⟨.num 0⟩, Option.some ⟨.num 0⟩⟩

/-- A fixed-mode configuration whose configured amount is negative. -/
def c2cfgNeg : FollowSettings :=
  ⟨3, true, "", "fixed", -2, 0, 0, 0, Option.some "k", Option.some "s",
    Option.none, "active", Option.none⟩

/-- An enabled fixed-mode configuration with no filters and no thresholds,
used to drive one full `_process_event` pass. -/
def c3cfg : FollowSettings :=
  ⟨3, true, "", "fixed", 2, 0, 0, 0, Option.some "k", Option.some "s",
    Option.none, "active", Option.none⟩

/-- An exchange that yields a client and no usable position query. -/
def c3env : ExchangeEnv := ⟨true, Option.none, Option.none⟩

/-- A `closed` event on coin ETH with prior position size +5 and no side
hint. -/
def c3ev : TradeEvent :=
  ⟨Option.some "0xa", Option.some "ETH", Option.some "closed", Option.none,
    Option.some ⟨.num 5⟩, Option.none⟩

/-- A configuration with max-position cap 1 and a tiny fixed amount. -/
def c4cfg : FollowSettings :=
  ⟨3, true, "", "fixed", 1 / 1000000000, 0, 1, 0, Option.some "k",
    Option.some "s", Option.none, "active", Option.none⟩

/-- An exchange whose position query reports a current position of exactly 1
(the cap). -/
def c4env : ExchangeEnv := ⟨true, Option.none, Option.some (.num 1)⟩

/-- An `opened` event on coin ETH with resulting position +1. -/
def c4ev : TradeEvent :=
  ⟨Option.some "0xa", Option.some "ETH", Option.some "opened", Option.none,
    Option.none, Option.some ⟨.num 1⟩⟩

/-- An `opened` event whose current position size is an unparseable string and
whose trade details are absent (no side hint). -/
def c9ev : TradeEvent :=
  ⟨Option.some "0xa", Option.some "ETH", Option.some "opened", Option.none,
    Option.none, Option.some ⟨.strBad "n/a"⟩⟩

/-- A payload whose `mode` is the mixed-case string `"Percentage"`. -/
def c10payload : FollowPayload :=
  ⟨true, Option.some "0xAbC", Option.some "Percentage", Option.some 10,
    Option.none, Option.none, Option.none, Option.some "k", Option.some "s",
    Option.none, Option.none, Option.none⟩

/-- A payload whose `mode` is an unknown string. -/
def c10payloadBad : FollowPayload :=
  ⟨true, Option.some "0xAbC", Option.some "martingale", Option.some 10,
    Option.none, Option.none, Option.none, Option.some "k", Option.some "s",
    Option.none, Option.none, Option.none⟩

/-- A follower state whose queue is filled to capacity. -/
def c5st : FollowerState :=
  ⟨3, Option.some c3cfg, List.replicate queueCapacity Option.none, Option.some 0,
    true, false⟩

/-- The event offered to the full queue. -/
def c5ev : TradeEvent :=
  ⟨Option.some "0xb", Option.some "BTC", Option.some "opened", Option.none,
    Option.none, Option.none⟩

/-- A lifecycle side effect of the follower worker. -/
inductive FAction where
  | started (user_id threadId : ℕ)
  | stopped (user_id : ℕ)
  | persisted (user_id : ℕ) (upd : StatusUpdate)
  deriving DecidableEq

/-- `BinanceFollower.stop` (binance_follow_service.py lines 115-124): if a
thread is alive, signal it, enqueue the `None` sentinel (dropped when the
queue is full) and join; always clear the thread and client handles. -/
def follower_stop (st : FollowerState) : FollowerState × List FAction :=
  if st.threadAlive then
    ({ st with
        queue := if st.queue.length < queueCapacity then
            st.queue ++ [Option.none] else st.queue,
        threadId := Option.none, threadAlive := false, clientReady := false },
      [FAction.stopped st.user_id])
  else
    ({ st with threadId := Option.none, clientReady := false }, [])

/-- `BinanceFollower.apply_config` (binance_follow_service.py lines 76-105):
store the config; a disabled config stops the worker; missing API credentials
stop it and persist a disabled status; otherwise spawn the worker thread if it
is not alive (a mere mode change on a live thread only logs). -/
def apply_config (nextT : ℕ) (st : FollowerState) (cfg : FollowSettings) :
    FollowerState × ℕ × List FAction :=
  let st := { st with config := Option.some cfg }
  if ¬cfg.enabled then
    let r := follower_stop st
    (r.1, nextT, r.2)
  else if cfg.api_key.getD "" = "" ∨ cfg.api_secret.getD "" = "" then
    let r := follower_stop st
    (r.1, nextT,
      r.2 ++ [FAction.persisted st.user_id
        ⟨Option.some false, Option.some "disabled",
          Option.some (Option.some "缺少 Binance API Key/Secret"), Option.none⟩])
  else if ¬st.threadAlive then
    ({ st with threadId := Option.some nextT, threadAlive := true },
      nextT + 1, [FAction.started st.user_id nextT])
  else (st, nextT, [])

/-- The `BinanceFollowRegistry` map plus a fresh-thread-id supply used to give
spawned worker threads distinct identities. -/
structure FRegistryState where
  followers : ℕ → Option FollowerState
  nextThread : ℕ

/-- `BinanceFollowRegistry.configure_user` (binance_follow_service.py lines
438-447): get or create the tenant's follower, apply the config, and drop the
registry entry when the config is disabled. -/
def fregistry_configure (s : FRegistryState) (cfg : FollowSettings) :
    FRegistryState × List FAction :=
  let follower := (s.followers cfg.user_id).getD (freshFollower cfg.user_id)
  let r := apply_config s.nextThread follower cfg
  if ¬cfg.enabled then
    let r2 := follower_stop r.1
    ({ followers := fun u => if u = cfg.user_id then Option.none else s.followers u,
       nextThread := r.2.1 }, r.2.2 ++ r2.2)
  else
    ({ followers := fun u => if u = cfg.user_id then Option.some r.1 else s.followers u,
       nextThread := r.2.1 }, r.2.2)

end Follow

namespace Monitor

open PyStr

/-- `_UserConfig` dataclass (monitor_service.py lines 42-51). -/
structure UserConfig where
  user_id : ℕ
  telegram_bot_token : String
  telegram_chat_id : String
  wallet_addresses : List String
  language : String
  wecom_enabled : Bool
  wecom_webhook_url : Option String
  wecom_mentions : List String
  deriving DecidableEq

/-- The mutable state of one `UserMonitor`: its config, its thread (identity
and liveness), whether the dynamically loaded module is in place
(`self._module is not None`), and the `_skip_snapshot_on_start` flag. -/
structure UserMonitorState where
  config : UserConfig
  threadId : Option ℕ
  threadAlive : Bool
  moduleLoaded : Bool
  skipSnapshotOnStart : Bool
  deriving DecidableEq

/-- A lifecycle side effect of the monitor worker. -/
inductive MonAction where
  | started (user_id threadId : ℕ)
  | stopped (user_id : ℕ)
  | snapshot (user_id : ℕ)
  deriving DecidableEq

/-- `bool(token and chat_id)` of `UserMonitor.start` (monitor_service.py line
72). -/
def hasTelegram (c : UserConfig) : Bool :=
  c.telegram_bot_token ≠ "" ∧ c.telegram_chat_id ≠ ""

/-- `bool(wecom_enabled and wecom_webhook_url)` of `UserMonitor.start`
(monitor_service.py line 73). -/
def hasWecom (c : UserConfig) : Bool :=
  c.wecom_enabled ∧ c.wecom_webhook_url.getD "" ≠ ""

/-- `UserMonitor.start` (monitor_service.py lines 63-83): reset the
skip-snapshot flag; a live thread returns immediately; no wallet addresses or
no enabled channel refuses to start; otherwise a fresh thread (with its own
module instance, not yet loaded) is spawned. -/
def start (nextT : ℕ) (m : UserMonitorState) :
    UserMonitorState × ℕ × List MonAction :=
  let m := { m with skipSnapshotOnStart := false }
  if m.threadAlive then (m, nextT, [])
  else if m.config.wallet_addresses = [] then (m, nextT, [])
  else if ¬(hasTelegram m.config ∨ hasWecom m.config) then (m, nextT, [])
  else
    ({ m with
        threadId := Option.some nextT,
        threadAlive := true,
        moduleLoaded := false }, nextT + 1,
      [MonAction.started m.config.user_id nextT])

/-- `UserMonitor.stop` (monitor_service.py lines 85-99): signal, join and
clear the thread and module handles. -/
def stop (m : UserMonitorState) : UserMonitorState × List MonAction :=
  ({ m with threadId := Option.none, threadAlive := false, moduleLoaded := false },
    [MonAction.stopped m.config.user_id])

/-- The language normalization `(language or "zh").lower()` coerced into
`{zh, en}` (monitor_service.py lines 113-115 and 410-412). -/
def normLang (language : String) : String :=
  let l := pyLower (if language = "" then "zh" else language)
  if ¬(l = "zh" ∨ l = "en") then "zh" else l

/-- `UserMonitor.update` (monitor_service.py lines 101-215): decide whether a
restart is needed (any channel/wallet field changed), swap in the new config,
push the config into the loaded module and force a snapshot when appropriate
(starting the monitor instead when the module is absent), then restart on a
restart-needed change or start a dead thread. -/
def update (nextT : ℕ) (m : UserMonitorState) (token chat : String)
    (wallets : List String) (language : String) (wecomEnabled : Bool)
    (webhook : Option String) (mentions : List String) :
    UserMonitorState × ℕ × List MonAction :=
  let old_language := m.config.language
  let normalized_language := normLang language
  let restart_needed := token ≠ m.config.telegram_bot_token ∨
    chat ≠ m.config.telegram_chat_id ∨ wallets ≠ m.config.wallet_addresses ∨
    wecomEnabled ≠ m.config.wecom_enabled ∨
    webhook ≠ m.config.wecom_webhook_url ∨ mentions ≠ m.config.wecom_mentions
  let language_changed := normalized_language ≠ old_language
  let m := { m with config :=
    ⟨m.config.user_id, token, chat, wallets, normalized_language, wecomEnabled,
      webhook, mentions⟩ }
  let telegram_enabled := m.config.telegram_chat_id ≠ ""
  let should_send := ¬restart_needed ∧
    (language_changed ∨ m.config.wecom_enabled ∨ telegram_enabled) ∧
    m.config.wallet_addresses ≠ []
  let step1 : UserMonitorState × ℕ × List MonAction :=
    if m.moduleLoaded then
      (m, nextT, if should_send then [MonAction.snapshot m.config.user_id] else [])
    else if should_send then
      start nextT { m with skipSnapshotOnStart := false }
    else (m, nextT, [])
  let m1 := step1.1
  let nextT1 := step1.2.1
  let acts1 := step1.2.2
  if restart_needed then
    let m2 := { m1 with skipSnapshotOnStart := false }
    let s2 := stop m2
    let s3 := start nextT1 s2.1
    (s3.1, s3.2.1, acts1 ++ s2.2 ++ s3.2.2)
  else if ¬m1.threadAlive then
    let m2 := { m1 with skipSnapshotOnStart := false }
    let s3 := start nextT1 m2
    (s3.1, s3.2.1, acts1 ++ s3.2.2)
  else (m1, nextT1, acts1)

/-- `MonitorRegistry._normalize_addresses` (monitor_service.py lines 376-389):
split each entry on whitespace/commas/semicolons, trim and lower-case each
token, drop empties, and keep the first occurrence of each distinct token (the
source's `seen` set is membership in the accumulated token list). -/
def normalize_addresses (addresses : List String) : List String :=
  addresses.foldl
    (fun tokens entry =>
      if entry = "" then tokens
      else
        (pySplitAddrs (pyStrip entry)).foldl
          (fun tokens tok =>
            let t := pyLower (pyStrip tok)
            if t = "" then tokens
            else if t ∈ tokens then tokens
            else tokens ++ [t])
          tokens)
    []

/-- The effective wallet set of `configure_user`: normalized addresses capped
at two entries (monitor_service.py lines 403-404). -/
def effective_wallets (addresses : List String) : List String :=
  (normalize_addresses addresses).take 2

/-- The raw arguments of `MonitorRegistry.configure_user`
(monitor_service.py lines 391-402). -/
structure ConfigureInput where
  telegram_bot_token : Option String
  telegram_chat_id : Option String
  wallet_addresses : List String
  language : String
  wecom_enabled : Bool
  wecom_webhook_url : Option String
  wecom_mentions : List String
  deriving DecidableEq

/-- `(telegram_bot_token or "").strip()` with the `DEFAULT_TELEGRAM_BOT_TOKEN`
fallback (monitor_service.py lines 405-408). -/
def effToken (defaultToken : String) (inp : ConfigureInput) : String :=
  let t := pyStrip (inp.telegram_bot_token.getD "")
  if t = "" ∧ defaultToken ≠ "" then defaultToken else t

/-- `(telegram_chat_id or "").strip()` (monitor_service.py line 409). -/
def effChat (inp : ConfigureInput) : String :=
  pyStrip (inp.telegram_chat_id.getD "")

/-- `(wecom_webhook_url or "").strip() or None` (monitor_service.py line
413). -/
def effWebhook (inp : ConfigureInput) : Option String :=
  let w := pyStrip (inp.wecom_webhook_url.getD "")
  if w = "" then Option.none else Option.some w

/-- The stripped non-empty mention list (monitor_service.py line 414). -/
def effMentions (inp : ConfigureInput) : List String :=
  (inp.wecom_mentions.map pyStrip).filter (fun x => x ≠ "")

/-- `bool(wecom_enabled and webhook)` (monitor_service.py line 415). -/
def effWecomActive (inp : ConfigureInput) : Bool :=
  inp.wecom_enabled ∧ effWebhook inp ≠ Option.none

/-- The `MonitorRegistry` map plus a fresh-thread-id supply. -/
structure RegistryState where
  monitors : ℕ → Option UserMonitorState
  nextThread : ℕ

/-- `MonitorRegistry.configure_user` (monitor_service.py lines 391-451):
normalize the inputs; an incomplete configuration (no token, no chat id or no
wallets) stops and removes any existing monitor; otherwise an existing monitor
is updated in place and a missing one is created and started. -/
def configure_user (defaultToken : String) (s : RegistryState) (user_id : ℕ)
    (inp : ConfigureInput) : RegistryState × List MonAction :=
  let wallets := effective_wallets inp.wallet_addresses
  let token := effToken defaultToken inp
  let chat := effChat inp
  let lang := normLang inp.language
  let webhook := effWebhook inp
  let mentions := effMentions inp
  let wecomActive := effWecomActive inp
  if token = "" ∨ chat = "" ∨ wallets = [] then
    match s.monitors user_id with
    | Option.some existing =>
      let st := stop existing
      ({ monitors := fun u => if u = user_id then Option.none else s.monitors u,
         nextThread := s.nextThread }, st.2)
    | Option.none => (s, [])
  else
    match s.monitors user_id with
    | Option.some existing =>
      let r := update s.nextThread existing token chat wallets lang wecomActive
        webhook mentions
      ({ monitors := fun u => if u = user_id then Option.some r.1 else s.monitors u,
         nextThread := r.2.1 }, r.2.2)
    | Option.none =>
      let m0 : UserMonitorState :=
        ⟨⟨user_id, token, chat, wallets, lang, wecomActive, webhook, mentions⟩,
          Option.none, false, false, false⟩
      let st := start s.nextThread m0
      ({ monitors := fun u => if u = user_id then Option.some st.1 else s.monitors u,
         nextThread := st.2.1 }, st.2.2)

/-- The token stream of the claim's wording for C8: per entry, the stripped
entry split at separators, each token trimmed and lower-cased, empties
dropped; entries concatenated in order. -/
def tokensOf (entries : List String) : List String :=
  (entries.map (fun entry =>
    if entry = "" then []
    else ((pySplitAddrs (pyStrip entry)).map (fun t => pyLower (pyStrip t))).filter
      (fun t => t ≠ ""))).flatten

/-- First-occurrence deduplication, written from the claim's words: keep each
element and drop its later duplicates. -/
def dedupFirst : List String → List String
  | [] => []
  | x :: xs => x :: dedupFirst (xs.filter (fun y => y ≠ x))
termination_by l => l.length
decreasing_by
  simp only [List.length_cons]
  exact Nat.lt_succ_of_le (List.length_filter_le _ _)

/-- The first-occurrence insertion fold shared by the code's normalization. -/
def insertAll (acc : List String) (toks : List String) : List String :=
  toks.foldl (fun ts t => if t ∈ ts then ts else ts ++ [t]) acc

/-- A monitor state with no wallet addresses (used against `start`). -/
def c7m : UserMonitorState :=
  ⟨⟨5, "tok", "chat", [], "zh", false, Option.none, []⟩,
    Option.none, false, false, false⟩

/-- A configure input with wallets and a WeCom webhook but no Telegram chat
id. -/
def c7inp : ConfigureInput :=
  ⟨Option.some "tok", Option.none, ["0xAbC"], "zh", true,
    Option.some "https://wecom.example/hook", []⟩

/-- A complete configure input: token, chat id, two wallets, English. -/
def c6inp : ConfigureInput :=
  ⟨Option.some " tok ", Option.some "chat-1", ["0xAbC 0xDeF"], "EN", true,
    Option.some "https://wecom.example/hook", [" ops "]⟩

/-- The empty monitor registry. -/
def emptyRegistry : RegistryState := ⟨fun _ => Option.none, 0⟩

end Monitor

/-- The empty follower registry. -/
def Follow.emptyFRegistry : Follow.FRegistryState := ⟨fun _ => Option.none, 0⟩

/-- An enabled follower configuration with API credentials present. -/
def Follow.c6cfg : Follow.FollowSettings :=
  ⟨9, true, "0xabc", "percentage", 10, 50, 3, 0, Option.some "key",
    Option.some "secret", Option.none, "active", Option.none⟩

/-- C1: with a positive stop-loss threshold and a recorded baseline, the check
on a fetched balance trips exactly when `baseline - current ≥ threshold`; on a
trip it persists status `stopped_by_loss` with a reason built from the loss and
the threshold, and stops the worker. -/
theorem check_stop_loss_trips_iff (cfg : Follow.FollowSettings) (b c : ℚ)
    (hen : cfg.enabled = true) (hpos : 0 < cfg.stop_loss_amount)
    (hbase : cfg.baseline_balance = Option.some b) :
    ((Follow.check_stop_loss cfg true (Option.some c)).tripped = true ↔
      cfg.stop_loss_amount ≤ b - c) ∧
    (cfg.stop_loss_amount ≤ b - c →
      (Follow.check_stop_loss cfg true (Option.some c)).persisted =
        Option.some ⟨Option.some false, Option.some "stopped_by_loss",
          Option.some (Option.some (Follow.stopLossReason (b - c) cfg.stop_loss_amount)),
          Option.none⟩ ∧
      (Follow.check_stop_loss cfg true (Option.some c)).workerStopped = true) := by
  unfold Follow.check_stop_loss
  simp only [hen, hbase]
  have h0 : ¬(cfg.stop_loss_amount = 0 ∨ cfg.stop_loss_amount ≤ 0) := by
    push_neg
    exact ⟨ne_of_gt hpos, hpos⟩
  constructor
  · by_cases h : cfg.stop_loss_amount ≤ b - c <;> simp [h, h0]
  · intro h
    simp [h, h0]

/-- Witness for C1 at the spec's concrete instance: threshold 100, baseline
1000, fetched balance 890 trips (and persists `stopped_by_loss`, stopping the
worker); fetched balance 950 does not trip. -/
theorem check_stop_loss_trips_iff_witness :
    Follow.c1cfg.enabled = true ∧ 0 < Follow.c1cfg.stop_loss_amount ∧
      Follow.c1cfg.baseline_balance = Option.some 1000 ∧
      (Follow.check_stop_loss Follow.c1cfg true (Option.some 890)).tripped = true ∧
      (Follow.check_stop_loss Follow.c1cfg true (Option.some 890)).workerStopped = true ∧
      (Follow.check_stop_loss Follow.c1cfg true (Option.some 890)).persisted =
        Option.some ⟨Option.some false, Option.some "stopped_by_loss",
          Option.some (Option.some (Follow.stopLossReason 110 100)), Option.none⟩ ∧
      (Follow.check_stop_loss Follow.c1cfg true (Option.some 950)).tripped = false := by
  have h890 := check_stop_loss_trips_iff Follow.c1cfg 1000 890 rfl (by norm_num [Follow.c1cfg]) rfl
  have h950 := check_stop_loss_trips_iff Follow.c1cfg 1000 950 rfl (by norm_num [Follow.c1cfg]) rfl
  refine ⟨rfl, by norm_num [Follow.c1cfg], rfl, ?_, ?_, ?_, ?_⟩
  · exact h890.1.mpr (by norm_num [Follow.c1cfg])
  · exact (h890.2 (by norm_num [Follow.c1cfg])).2
  · have := (h890.2 (by norm_num [Follow.c1cfg])).1
    simpa [show (1000 : ℚ) - 890 = 110 by norm_num, Follow.c1cfg] using this
  · by_contra hc
    simp only [Bool.not_eq_false] at hc
    have := h950.1.mp hc
    norm_num [Follow.c1cfg] at this

/-- Inversion: whenever `_process_event` places an order, the order's fields
come from symbol mapping, side determination and quantity calculation, the
reduce-only flag reflects a `reduced`/`closed` event kind, and the max-position
check passed. -/
theorem process_event_ordered_inv (config : Follow.FollowSettings)
    (env : Follow.ExchangeEnv) (ev : Follow.TradeEvent) (s sd : String) (q : ℚ)
    (ro : Bool)
    (h : Follow.process_event (Option.some config) env ev =
      Follow.ProcessOutcome.ordered s sd q ro) :
    Follow.map_symbol ev.coin = Option.some s ∧
    Follow.determine_side ev.event_type (ev.trade_details.getD Follow.emptyDetails) ev =
      Option.some sd ∧
    q = Follow.calculate_quantity (Option.some config)
      (ev.trade_details.getD Follow.emptyDetails) ev ∧
    ro = decide (ev.event_type = Option.some "reduced" ∨
      ev.event_type = Option.some "closed") ∧
    Follow.check_max_position config env.positionAmt q ev.event_type = true := by
  unfold Follow.process_event at h
  simp only at h
  split at h
  · exact absurd h (by simp)
  · split at h
    · exact absurd h (by simp)
    · split at h
      · exact absurd h (by simp)
      · split at h
        · exact absurd h (by simp)
        · split at h
          · exact absurd h (by simp)
          · split at h
            · exact absurd h (by simp)
            · split at h
              · exact absurd h (by simp)
              · split at h
                · exact absurd h (by simp)
                · split at h
                  · exact absurd h (by simp)
                  · injection h with h1 h2 h3 h4
                    subst h1; subst h2; subst h3; subst h4
                    refine ⟨by assumption, by assumption, rfl, rfl, ?_⟩
                    rename_i hmax
                    simpa using hmax

/-- The size-fallback chain of `_calculate_quantity`, as pure if-arithmetic:
the sequential reassignments of `size` equal the preference chain of
`observed_size`. -/
theorem size_chain_eq (e D C H : ℚ) (hC : 0 ≤ C) :
    (if (if e ≤ 0 then (if D > 0 then D else C) else e) ≤ 0 then H
      else (if e ≤ 0 then (if D > 0 then D else C) else e)) =
    (if 0 < e then e else if 0 < D then D else if 0 < C then C else H) := by
  rcases le_or_lt e 0 with h1 | h1
  · rw [if_pos h1, if_neg (not_lt.mpr h1)]
    rcases lt_or_le 0 D with h2 | h2
    · rw [if_pos h2, if_neg (not_le.mpr h2), if_pos h2]
    · rw [if_neg (not_lt.mpr h2)]
      rcases lt_or_le 0 C with h3 | h3
      · rw [if_neg (not_le.mpr h3), if_neg (not_lt.mpr h2), if_pos h3]
      · have hC0 : C = 0 := le_antisymm h3 hC
        rw [if_pos h3, if_neg (not_lt.mpr h2), if_neg (not_lt.mpr h3)]
  · rw [if_neg (not_le.mpr h1), if_neg (not_le.mpr h1), if_pos h1]

/-- C2 counterexample: the claim's three-source fallback chain and its
"quantity = configured amount" reading both fail on the code. With all three
claimed sources zero but a position-size hint of 7, percentage mode with
amount 10 orders 0.7 while the claim's formula gives 0; and with a negative
configured fixed amount, the code orders 0 rather than the configured
amount. -/
theorem calculate_quantity_claim_counterexample :
    Follow.calculate_quantity (Option.some Follow.c2cfgPct) Follow.c2tdHint7
      Follow.c2evHint7 = 7 / 10 ∧
    Follow.observed_size_claim Follow.c2tdHint7 Follow.c2evHint7 *
      Follow.c2cfgPct.amount / 100 = 0 ∧
    (7 / 10 : ℚ) ≠ 0 ∧
    Follow.calculate_quantity (Option.some Follow.c2cfgNeg) Follow.emptyDetails
      Follow.c2evHint7 = 0 ∧
    Follow.c2cfgNeg.amount = -2 ∧ (0 : ℚ) ≠ -2 := by
  refine ⟨?_, ?_, by norm_num, ?_, rfl, by norm_num⟩
  · simp only [Follow.calculate_quantity, Follow.c2cfgPct, Follow.c2tdHint7,
      Follow.c2evHint7, Follow.sziOf, Follow.float_or_zero]
    norm_num [abs, max_def]
  · simp only [Follow.observed_size_claim, Follow.c2cfgPct, Follow.c2tdHint7,
      Follow.c2evHint7, Follow.sziOf, Follow.float_or_zero]
    norm_num [abs, max_def]
  · simp only [Follow.calculate_quantity, Follow.c2cfgNeg, Follow.emptyDetails,
      Follow.c2evHint7, Follow.sziOf, Follow.float_or_zero]
    norm_num [abs, max_def]

/-- C2 (amended): the computed quantity is, in `percentage` mode,
`max 0 (observed_size × amount / 100)` and otherwise `max 0 amount`, where
`observed_size` prefers the explicit trade size, then the absolute difference
of the prior and current position magnitudes, then the current position's
absolute size, then the trade details' absolute position-size hint; in
particular percentage mode with amount 10 and positions 5 → 8 orders 0.3, and
fixed mode with amount 2 always orders 2. -/
theorem calculate_quantity_modes :
    (∀ (cfg : Follow.FollowSettings) (td : Follow.TradeDetails)
      (ev : Follow.TradeEvent),
      Follow.calculate_quantity (Option.some cfg) td ev =
        if cfg.mode = "percentage" then
          max 0 (Follow.observed_size td ev * cfg.amount / 100)
        else max 0 cfg.amount) ∧
    Follow.calculate_quantity (Option.some Follow.c2cfgPct) Follow.emptyDetails
      Follow.c2ev58 = 3 / 10 ∧
    (∀ (td : Follow.TradeDetails) (ev : Follow.TradeEvent),
      Follow.calculate_quantity (Option.some Follow.c2cfgFixed) td ev = 2) := by
  have key : ∀ (cfg : Follow.FollowSettings) (td : Follow.TradeDetails)
      (ev : Follow.TradeEvent),
      Follow.calculate_quantity (Option.some cfg) td ev =
        if cfg.mode = "percentage" then
          max 0 (Follow.observed_size td ev * cfg.amount / 100)
        else max 0 cfg.amount := by
    intro cfg td ev
    simp only [Follow.calculate_quantity, Follow.observed_size]
    rw [size_chain_eq (Follow.float_or_zero td.size)
      (|(|Follow.sziOf ev.previous_position|) - (|Follow.sziOf ev.current_position|)|)
      (|Follow.sziOf ev.current_position|)
      (|Follow.float_or_zero td.position_size|) (abs_nonneg _)]
  refine ⟨key, ?_, ?_⟩
  · rw [key]
    simp only [Follow.observed_size, Follow.c2cfgPct, Follow.emptyDetails,
      Follow.c2ev58, Follow.sziOf, Follow.float_or_zero]
    norm_num [abs, max_def]
  · intro td ev
    rw [key]
    simp only [Follow.c2cfgFixed]
    rw [if_neg (by decide)]
    norm_num [max_def]

/-- C3: an explicit side hint (`B`/`A`) wins; otherwise `opened` takes the
side of the resulting position's sign and `reduced`/`closed` the opposite of
the prior position's sign; an order's reduce-only flag is set exactly for
`reduced`/`closed` kinds; an event whose side cannot be determined is never
ordered. -/
theorem determine_side_spec :
    (∀ (et : Option String) (td : Follow.TradeDetails) (ev : Follow.TradeEvent),
      (PyStr.pyUpper (td.side.getD "") = "B" →
        Follow.determine_side et td ev = Option.some "BUY") ∧
      (PyStr.pyUpper (td.side.getD "") = "A" →
        Follow.determine_side et td ev = Option.some "SELL") ∧
      (PyStr.pyUpper (td.side.getD "") ≠ "B" →
        PyStr.pyUpper (td.side.getD "") ≠ "A" →
        (et = Option.some "opened" →
          (0 < Follow.sziOf ev.current_position →
            Follow.determine_side et td ev = Option.some "BUY") ∧
          (Follow.sziOf ev.current_position < 0 →
            Follow.determine_side et td ev = Option.some "SELL")) ∧
        ((et = Option.some "reduced" ∨ et = Option.some "closed") →
          (0 < Follow.sziOf ev.previous_position →
            Follow.determine_side et td ev = Option.some "SELL") ∧
          (Follow.sziOf ev.previous_position < 0 →
            Follow.determine_side et td ev = Option.some "BUY")))) ∧
    (∀ (config : Follow.FollowSettings) (env : Follow.ExchangeEnv)
      (ev : Follow.TradeEvent) (s sd : String) (q : ℚ) (ro : Bool),
      Follow.process_event (Option.some config) env ev =
        Follow.ProcessOutcome.ordered s sd q ro →
      ro = decide (ev.event_type = Option.some "reduced" ∨
        ev.event_type = Option.some "closed") ∧
      Follow.determine_side ev.event_type
        (ev.trade_details.getD Follow.emptyDetails) ev = Option.some sd) ∧
    (∀ (cfg : Option Follow.FollowSettings) (env : Follow.ExchangeEnv)
      (ev : Follow.TradeEvent),
      Follow.determine_side ev.event_type
        (ev.trade_details.getD Follow.emptyDetails) ev = Option.none →
      ∀ (s sd : String) (q : ℚ) (ro : Bool),
        Follow.process_event cfg env ev ≠
          Follow.ProcessOutcome.ordered s sd q ro) := by
  refine ⟨?_, ?_, ?_⟩
  · intro et td ev
    refine ⟨?_, ?_, ?_⟩
    · intro hb
      simp [Follow.determine_side, hb]
    · intro ha
      simp [Follow.determine_side, ha]
    · intro hb ha
      constructor
      · intro hopen
        constructor
        · intro hpos
          simp [Follow.determine_side, hb, ha, hopen, le_of_lt hpos]
        · intro hneg
          simp [Follow.determine_side, hb, ha, hopen, not_le.mpr hneg]
      · intro hrc
        have hno : et ≠ Option.some "opened" := by
          rcases hrc with h | h <;> subst h <;> simp
        constructor
        · intro hpos
          rcases hrc with h | h <;> subst h <;>
            simp [Follow.determine_side, hb, ha, hpos]
        · intro hneg
          rcases hrc with h | h <;> subst h <;>
            simp [Follow.determine_side, hb, ha, not_lt.mpr (le_of_lt hneg),
              asymm hneg]
  · intro config env ev s sd q ro h
    have hinv := process_event_ordered_inv config env ev s sd q ro h
    exact ⟨hinv.2.2.2.1, hinv.2.1⟩
  · intro cfg env ev hside s sd q ro h
    match cfg with
    | Option.none => exact absurd h (by simp [Follow.process_event])
    | Option.some config =>
      have hinv := process_event_ordered_inv config env ev s sd q ro h
      rw [hside] at hinv
      exact Option.noConfusion hinv.2.1

/-- Witness for C3: a `closed` event with prior position +5 and no side hint
resolves to SELL; a full processing pass on it places a reduce-only SELL
order. -/
theorem determine_side_spec_witness :
    PyStr.pyUpper (Follow.emptyDetails.side.getD "") ≠ "B" ∧
    PyStr.pyUpper (Follow.emptyDetails.side.getD "") ≠ "A" ∧
    0 < Follow.sziOf Follow.c3ev.previous_position ∧
    Follow.determine_side (Option.some "closed") Follow.emptyDetails Follow.c3ev =
      Option.some "SELL" ∧
    Follow.process_event (Option.some Follow.c3cfg) Follow.c3env Follow.c3ev =
      Follow.ProcessOutcome.ordered "ETHUSDT" "SELL" 2 true ∧
    true = decide (Follow.c3ev.event_type = Option.some "reduced" ∨
      Follow.c3ev.event_type = Option.some "closed") := by
  have hB : PyStr.pyUpper (Follow.emptyDetails.side.getD "") ≠ "B" := by decide
  have hA : PyStr.pyUpper (Follow.emptyDetails.side.getD "") ≠ "A" := by decide
  have hpos : 0 < Follow.sziOf Follow.c3ev.previous_position := by
    norm_num [Follow.c3ev, Follow.sziOf, Follow.float_or_zero]
  have hside := (((determine_side_spec.1 (Option.some "closed") Follow.emptyDetails
    Follow.c3ev).2.2 hB hA).2 (Or.inr rfl)).1 hpos
  have hsym : Follow.map_symbol Follow.c3ev.coin = Option.some "ETHUSDT" := by decide
  have hq : Follow.calculate_quantity (Option.some Follow.c3cfg)
      Follow.emptyDetails Follow.c3ev = 2 := by
    simp only [Follow.calculate_quantity, Follow.c3cfg, Follow.emptyDetails,
      Follow.c3ev, Follow.sziOf, Follow.float_or_zero]
    rw [if_neg (by decide)]
    norm_num [max_def]
  have hEval : Follow.process_event (Option.some Follow.c3cfg) Follow.c3env
      Follow.c3ev = Follow.ProcessOutcome.ordered "ETHUSDT" "SELL" 2 true := by
    simp only [Follow.process_event]
    rw [if_neg (by decide)]
    rw [if_neg (by decide)]
    rw [if_neg (by norm_num [Follow.c3cfg, Follow.c3env, Follow.check_stop_loss])]
    have hc3 : Follow.c3ev.trade_details.getD Follow.emptyDetails =
      Follow.emptyDetails := by decide
    have het : Follow.c3ev.event_type = Option.some "closed" := rfl
    rw [hsym, hc3, het, hside, hq]
    norm_num [Follow.c3cfg, Follow.c3env, Follow.check_max_position]
  have hro := (determine_side_spec.2.1 Follow.c3cfg Follow.c3env Follow.c3ev
    "ETHUSDT" "SELL" 2 true hEval).1
  exact ⟨hB, hA, hpos, hside, hEval, hro⟩

/-- C9: an `opened` event with no explicit side hint whose current position
size coerces to zero (missing, zero, or unparseable) resolves to BUY rather
than being discarded as side-undeterminable. -/
theorem opened_zero_defaults_to_buy (td : Follow.TradeDetails)
    (ev : Follow.TradeEvent)
    (hside : td.side = Option.none ∨ td.side = Option.some "")
    (hz : Follow.sziOf ev.current_position = 0) :
    Follow.determine_side (Option.some "opened") td ev = Option.some "BUY" ∧
    Follow.determine_side (Option.some "opened") td ev ≠ Option.none := by
  have hb : PyStr.pyUpper (td.side.getD "") = "" := by
    rcases hside with h | h <;> rw [h] <;> decide
  constructor
  · simp [Follow.determine_side, hb, hz]
  · simp [Follow.determine_side, hb, hz]

/-- Witness for C9: absent trade details (no side hint) and an unparseable
current position size yield a BUY on an `opened` event. -/
theorem opened_zero_defaults_to_buy_witness :
    (Follow.emptyDetails.side = Option.none ∨
      Follow.emptyDetails.side = Option.some "") ∧
    Follow.sziOf Follow.c9ev.current_position = 0 ∧
    Follow.determine_side (Option.some "opened") Follow.emptyDetails Follow.c9ev =
      Option.some "BUY" := by
  refine ⟨Or.inl rfl, rfl, ?_⟩
  exact (opened_zero_defaults_to_buy Follow.emptyDetails Follow.c9ev
    (Or.inl rfl) rfl).1

/-- C4 counterexample: with cap 1, a queried position of exactly 1 and an
order quantity of 10⁻⁹, `current + quantity` exceeds the cap, yet the
tolerance `1e-8` in the comparison lets the order through: the `opened` event
is ordered, not discarded. -/
theorem check_max_position_claim_counterexample :
    Follow.process_event (Option.some Follow.c4cfg) Follow.c4env Follow.c4ev =
      Follow.ProcessOutcome.ordered "ETHUSDT" "BUY" (1 / 1000000000) false ∧
    Follow.c4cfg.max_position <
      |Follow.float_or_zero (Follow.PyValue.num 1)| + 1 / 1000000000 ∧
    Follow.c4env.positionAmt = Option.some (Follow.PyValue.num 1) ∧
    Follow.c4ev.event_type = Option.some "opened" ∧
    0 < Follow.c4cfg.max_position := by
  refine ⟨?_, ?_, rfl, rfl, ?_⟩
  · have hsym : Follow.map_symbol Follow.c4ev.coin = Option.some "ETHUSDT" := by
      decide
    have hside : Follow.determine_side Follow.c4ev.event_type
        (Follow.c4ev.trade_details.getD Follow.emptyDetails) Follow.c4ev =
        Option.some "BUY" := by
      have h0 : Follow.sziOf Follow.c4ev.current_position = 1 := by
        norm_num [Follow.c4ev, Follow.sziOf, Follow.float_or_zero]
      unfold Follow.determine_side
      rw [show PyStr.pyUpper
        ((Follow.c4ev.trade_details.getD Follow.emptyDetails).side.getD "") = ""
        from by decide]
      rw [if_neg (by decide), if_neg (by decide),
        if_pos (show Follow.c4ev.event_type = Option.some "opened" from rfl), h0]
      norm_num
    have hq : Follow.calculate_quantity (Option.some Follow.c4cfg)
        (Follow.c4ev.trade_details.getD Follow.emptyDetails) Follow.c4ev =
        1 / 1000000000 := by
      simp only [Follow.calculate_quantity, Follow.c4cfg, Follow.c4ev,
        Follow.emptyDetails, Follow.sziOf, Follow.float_or_zero, Option.getD]
      rw [if_neg (by decide)]
      norm_num [max_def]
    have hmax : Follow.check_max_position Follow.c4cfg Follow.c4env.positionAmt
        (1 / 1000000000) Follow.c4ev.event_type = true := by
      simp only [Follow.check_max_position, Follow.c4cfg, Follow.c4env,
        Follow.c4ev, Follow.float_or_zero]
      rw [if_neg (by norm_num)]
      rw [if_neg (by decide)]
      norm_num
    simp only [Follow.process_event]
    rw [if_neg (by decide)]
    rw [if_neg (by decide)]
    rw [if_neg (by norm_num [Follow.c4cfg, Follow.c4env, Follow.check_stop_loss])]
    rw [hsym, hside, hq, hmax]
    norm_num [Follow.c4cfg, Follow.c4env, Follow.c4ev]
    exact ⟨by decide, by decide⟩
  · norm_num [Follow.c4cfg, Follow.float_or_zero]
  · norm_num [Follow.c4cfg]

/-- C4 (amended): with a positive cap and an event kind that is not
`reduced`/`closed`, a successful position query blocks the order exactly when
`|position| + quantity` exceeds the cap by more than the tolerance `1e-8`;
`reduced`/`closed` kinds bypass the check entirely; and every placed order
passed the check. -/
theorem check_max_position_spec :
    (∀ (cfg : Follow.FollowSettings) (v : Follow.PyValue) (q : ℚ)
      (et : Option String),
      0 < cfg.max_position → et ≠ Option.some "reduced" →
      et ≠ Option.some "closed" →
      (Follow.check_max_position cfg (Option.some v) q et = false ↔
        cfg.max_position + 1 / 100000000 < |Follow.float_or_zero v| + q)) ∧
    (∀ (cfg : Follow.FollowSettings) (p : Option Follow.PyValue) (q : ℚ)
      (et : Option String),
      (et = Option.some "reduced" ∨ et = Option.some "closed") →
      Follow.check_max_position cfg p q et = true) ∧
    (∀ (config : Follow.FollowSettings) (env : Follow.ExchangeEnv)
      (ev : Follow.TradeEvent) (s sd : String) (q : ℚ) (ro : Bool),
      Follow.process_event (Option.some config) env ev =
        Follow.ProcessOutcome.ordered s sd q ro →
      Follow.check_max_position config env.positionAmt q ev.event_type = true) := by
  refine ⟨?_, ?_, ?_⟩
  · intro cfg v q et hpos hr hc
    unfold Follow.check_max_position
    rw [if_neg (by push_neg; exact ⟨ne_of_gt hpos, hpos⟩)]
    rw [if_neg (by simp [hr, hc])]
    simp only [gt_iff_lt]
    by_cases h : cfg.max_position + 1 / 100000000 < |Follow.float_or_zero v| + q
    · simp [h]
    · simp [h]
  · intro cfg p q et h
    unfold Follow.check_max_position
    by_cases h0 : cfg.max_position = 0 ∨ cfg.max_position ≤ 0
    · simp [h0]
    · simp [h0, h]
  · intro config env ev s sd q ro h
    exact (process_event_ordered_inv config env ev s sd q ro h).2.2.2.2

/-- Witness for C4 (amended) at cap 1: a queried position of 1 with quantity 2
blocks the order (excess beyond tolerance), and a `closed` event bypasses the
check. -/
theorem check_max_position_spec_witness :
    0 < Follow.c4cfg.max_position ∧
    (Follow.check_max_position Follow.c4cfg (Option.some (Follow.PyValue.num 1))
        2 (Option.some "opened") = false ↔
      Follow.c4cfg.max_position + 1 / 100000000 <
        |Follow.float_or_zero (Follow.PyValue.num 1)| + 2) ∧
    Follow.check_max_position Follow.c4cfg (Option.some (Follow.PyValue.num 1))
      2 (Option.some "closed") = true := by
  refine ⟨by norm_num [Follow.c4cfg], ?_, ?_⟩
  · exact check_max_position_spec.1 Follow.c4cfg (Follow.PyValue.num 1) 2
      (Option.some "opened") (by norm_num [Follow.c4cfg]) (by decide) (by decide)
  · exact check_max_position_spec.2.1 Follow.c4cfg
      (Option.some (Follow.PyValue.num 1)) 2 (Option.some "closed") (Or.inr rfl)

/-- C5: a follower whose queue already holds `queueCapacity` items never
blocks on a further enqueue: the state (hence the queue and its length) is
unchanged and the offered newest event is dropped with a warning logged. -/
theorem enqueue_event_full_drops (st : Follow.FollowerState)
    (ev : Follow.TradeEvent) (cfg : Follow.FollowSettings)
    (hcfg : st.config = Option.some cfg) (hen : cfg.enabled = true)
    (hfull : st.queue.length = Follow.queueCapacity) :
    (Follow.enqueue_event st ev).1 = st ∧
    (Follow.enqueue_event st ev).2 = true ∧
    (Follow.enqueue_event st ev).1.queue.length = Follow.queueCapacity ∧
    (Option.some ev ∈ (Follow.enqueue_event st ev).1.queue ↔
      Option.some ev ∈ st.queue) := by
  unfold Follow.enqueue_event
  rw [hcfg]
  simp [hen, hfull]

/-- Witness for C5: a queue of 1024 items, one more enqueue attempt. -/
theorem enqueue_event_full_drops_witness :
    Follow.c5st.config = Option.some Follow.c3cfg ∧
    Follow.c3cfg.enabled = true ∧
    Follow.c5st.queue.length = Follow.queueCapacity ∧
    (Follow.enqueue_event Follow.c5st Follow.c5ev).1 = Follow.c5st ∧
    (Follow.enqueue_event Follow.c5st Follow.c5ev).2 = true := by
  have hlen : Follow.c5st.queue.length = Follow.queueCapacity := by
    show (List.replicate Follow.queueCapacity
      (Option.none : Option Follow.TradeEvent)).length = Follow.queueCapacity
    exact List.length_replicate _ _
  have h := enqueue_event_full_drops Follow.c5st Follow.c5ev Follow.c3cfg rfl rfl
    hlen
  exact ⟨rfl, rfl, hlen, h.1, h.2.1⟩

/-- C10 counterexample: the payload mode `"Percentage"` is a value other than
the strings `fixed` and `percentage`, yet `_settings_from_dict` normalizes it
to `percentage`, not to `fixed` as the claim states. -/
theorem settings_mode_claim_counterexample :
    Follow.c10payload.mode = Option.some "Percentage" ∧
    ("Percentage" : String) ≠ "fixed" ∧ ("Percentage" : String) ≠ "percentage" ∧
    (Follow.settings_from_dict 1 Follow.c10payload).mode = "percentage" ∧
    (Follow.settings_from_dict 1 Follow.c10payload).mode ≠ "fixed" := by
  refine ⟨rfl, by decide, by decide, by decide, by decide⟩

/-- C10 (amended): `_settings_from_dict` lower-cases the mode (a missing or
empty value defaulting to `fixed` first); if the lower-cased value is neither
`fixed` nor `percentage` the mode becomes `fixed`, otherwise the lower-cased
value is kept — so the worker only ever observes `fixed` or `percentage` —
and the wallet-address filter is lower-cased. -/
theorem settings_mode_normalized (uid : ℕ) (p : Follow.FollowPayload) :
    ((Follow.settings_from_dict uid p).mode = "fixed" ∨
      (Follow.settings_from_dict uid p).mode = "percentage") ∧
    (PyStr.pyLower (Follow.orDefaultStr p.mode "fixed") ≠ "fixed" →
      PyStr.pyLower (Follow.orDefaultStr p.mode "fixed") ≠ "percentage" →
      (Follow.settings_from_dict uid p).mode = "fixed") ∧
    ((PyStr.pyLower (Follow.orDefaultStr p.mode "fixed") = "fixed" ∨
      PyStr.pyLower (Follow.orDefaultStr p.mode "fixed") = "percentage") →
      (Follow.settings_from_dict uid p).mode =
        PyStr.pyLower (Follow.orDefaultStr p.mode "fixed")) ∧
    (p.mode = Option.none → (Follow.settings_from_dict uid p).mode = "fixed") ∧
    (Follow.settings_from_dict uid p).wallet_address =
      PyStr.pyLower (p.wallet_address.getD "") := by
  have hm : (Follow.settings_from_dict uid p).mode = Follow.normalize_mode p.mode := rfl
  refine ⟨?_, ?_, ?_, ?_, rfl⟩
  · rw [hm]
    by_cases h : PyStr.pyLower (Follow.orDefaultStr p.mode "fixed") = "fixed" ∨
      PyStr.pyLower (Follow.orDefaultStr p.mode "fixed") = "percentage"
    · rcases h with h | h
      · left
        simp only [Follow.normalize_mode]
        rw [h]
        simp
      · right
        simp only [Follow.normalize_mode]
        rw [h]
        simp
    · push_neg at h
      left
      simp [Follow.normalize_mode, h.1, h.2]
  · intro h1 h2
    rw [hm]
    simp [Follow.normalize_mode, h1, h2]
  · intro h
    rw [hm]
    simp only [Follow.normalize_mode]
    rcases h with h | h <;> rw [h] <;> simp
  · intro h
    rw [hm, h]
    decide

/-- Witness for C10 (amended): an unknown mode string becomes `fixed`, a
mixed-case wallet address is lower-cased. -/
theorem settings_mode_normalized_witness :
    PyStr.pyLower (Follow.orDefaultStr Follow.c10payloadBad.mode "fixed") ≠
      "fixed" ∧
    PyStr.pyLower (Follow.orDefaultStr Follow.c10payloadBad.mode "fixed") ≠
      "percentage" ∧
    (Follow.settings_from_dict 1 Follow.c10payloadBad).mode = "fixed" ∧
    (Follow.settings_from_dict 1 Follow.c10payloadBad).wallet_address =
      PyStr.pyLower (Follow.c10payloadBad.wallet_address.getD "") := by
  refine ⟨by decide, by decide, ?_, ?_⟩
  · exact (settings_mode_normalized 1 Follow.c10payloadBad).2.1 (by decide)
      (by decide)
  · exact (settings_mode_normalized 1 Follow.c10payloadBad).2.2.2.2

/-- Folding the first-occurrence insertion over a concatenation is the
composition of the two folds. -/
theorem insertAll_append (acc : List String) (xs ys : List String) :
    Monitor.insertAll acc (xs ++ ys) =
      Monitor.insertAll (Monitor.insertAll acc xs) ys := by
  simp [Monitor.insertAll, List.foldl_append]

/-- The inner token fold of `_normalize_addresses` (which skips empty tokens
inline) equals the plain insertion fold over the lower-cased, trimmed,
empty-filtered token list. -/
theorem inner_fold_eq (toks : List String) (acc : List String) :
    toks.foldl (fun ts tok =>
      let t := PyStr.pyLower (PyStr.pyStrip tok)
      if t = "" then ts else if t ∈ ts then ts else ts ++ [t]) acc =
    Monitor.insertAll acc
      ((toks.map (fun t => PyStr.pyLower (PyStr.pyStrip t))).filter
        (fun t => t ≠ "")) := by
  induction toks generalizing acc with
  | nil => rfl
  | cons tok toks ih =>
    simp only [List.foldl_cons, List.map_cons, List.filter_cons]
    by_cases h : PyStr.pyLower (PyStr.pyStrip tok) = ""
    · simp [h, ih]
    · simp only [h, if_false, ih, Monitor.insertAll, List.foldl_cons]
      simp [h]

/-- The insertion fold extends the accumulator with the first-occurrence
deduplication of the not-yet-seen tokens. -/
theorem insertAll_eq_dedupFirst (toks : List String) :
    ∀ (acc : List String),
      Monitor.insertAll acc toks =
        acc ++ Monitor.dedupFirst (toks.filter (fun t => t ∉ acc)) := by
  induction toks with
  | nil =>
    intro acc
    simp [Monitor.insertAll, Monitor.dedupFirst]
  | cons t ts ih =>
    intro acc
    have hstep : Monitor.insertAll acc (t :: ts) =
        Monitor.insertAll (if t ∈ acc then acc else acc ++ [t]) ts := by
      simp [Monitor.insertAll, List.foldl_cons]
    by_cases ht : t ∈ acc
    · rw [hstep, if_pos ht, ih acc]
      have : (t :: ts).filter (fun y => y ∉ acc) = ts.filter (fun y => y ∉ acc) := by
        simp [List.filter_cons, ht]
      rw [this]
    · rw [hstep, if_neg ht, ih (acc ++ [t])]
      have hfil : ts.filter (fun y => y ∉ acc ++ [t]) =
          (ts.filter (fun y => y ∉ acc)).filter (fun y => y ≠ t) := by
        rw [List.filter_filter]
        apply List.filter_congr
        intro y _
        by_cases h1 : y = t
        · simp [h1, List.mem_append]
        · by_cases h2 : y ∈ acc <;> simp [h1, h2, List.mem_append]
      have hkeep : (t :: ts).filter (fun y => y ∉ acc) =
          t :: ts.filter (fun y => y ∉ acc) := by
        simp [List.filter_cons, ht]
      rw [hfil, hkeep]
      show acc ++ [t] ++ Monitor.dedupFirst _ = _
      rw [List.append_assoc, List.singleton_append]
      rw [show Monitor.dedupFirst (t :: ts.filter (fun y => y ∉ acc)) =
        t :: Monitor.dedupFirst ((ts.filter (fun y => y ∉ acc)).filter
          (fun y => y ≠ t)) from by rw [Monitor.dedupFirst]]

/-- The outer entry fold of `_normalize_addresses` is the insertion fold over
the concatenated token stream. -/
theorem normalize_addresses_eq_insertAll (entries : List String) :
    ∀ (acc : List String),
      entries.foldl
        (fun tokens entry =>
          if entry = "" then tokens
          else
            (PyStr.pySplitAddrs (PyStr.pyStrip entry)).foldl
              (fun tokens tok =>
                let t := PyStr.pyLower (PyStr.pyStrip tok)
                if t = "" then tokens
                else if t ∈ tokens then tokens
                else tokens ++ [t])
              tokens)
        acc =
      Monitor.insertAll acc (Monitor.tokensOf entries) := by
  induction entries with
  | nil =>
    intro acc
    simp [Monitor.tokensOf, Monitor.insertAll]
  | cons e es ih =>
    intro acc
    have htok : Monitor.tokensOf (e :: es) =
        (if e = "" then [] else
          ((PyStr.pySplitAddrs (PyStr.pyStrip e)).map
            (fun t => PyStr.pyLower (PyStr.pyStrip t))).filter (fun t => t ≠ "")) ++
          Monitor.tokensOf es := by
      simp [Monitor.tokensOf]
    rw [List.foldl_cons, ih, htok, insertAll_append]
    by_cases h : e = ""
    · simp [h, Monitor.insertAll]
    · rw [if_neg h, if_neg h, inner_fold_eq]

/-- Every element of the first-occurrence deduplication came from the list. -/
theorem mem_of_mem_dedupFirst :
    ∀ (n : ℕ) (l : List String), l.length ≤ n →
      ∀ (x : String), x ∈ Monitor.dedupFirst l → x ∈ l := by
  intro n
  induction n with
  | zero =>
    intro l hl x hx
    rw [List.length_eq_zero.mp (Nat.le_zero.mp hl)] at hx ⊢
    rw [Monitor.dedupFirst] at hx
    exact hx
  | succ n ih =>
    intro l hl x hx
    match l with
    | [] =>
      rw [Monitor.dedupFirst] at hx
      exact hx
    | y :: ys =>
      rw [Monitor.dedupFirst, List.mem_cons] at hx
      rcases hx with h | h
      · exact h ▸ List.mem_cons_self _ _
      · have hlen : (ys.filter (fun z => z ≠ y)).length ≤ n :=
          le_trans (List.length_filter_le _ _)
            (Nat.le_of_succ_le_succ hl)
        have := ih _ hlen x h
        exact List.mem_cons_of_mem _ (List.mem_of_mem_filter this)

/-- The first-occurrence deduplication has no duplicates. -/
theorem nodup_dedupFirst :
    ∀ (n : ℕ) (l : List String), l.length ≤ n →
      (Monitor.dedupFirst l).Nodup := by
  intro n
  induction n with
  | zero =>
    intro l hl
    rw [List.length_eq_zero.mp (Nat.le_zero.mp hl), Monitor.dedupFirst]
    exact List.nodup_nil
  | succ n ih =>
    intro l hl
    match l with
    | [] =>
      rw [Monitor.dedupFirst]
      exact List.nodup_nil
    | y :: ys =>
      rw [Monitor.dedupFirst]
      have hlen : (ys.filter (fun z => z ≠ y)).length ≤ n :=
        le_trans (List.length_filter_le _ _) (Nat.le_of_succ_le_succ hl)
      refine List.nodup_cons.mpr ⟨?_, ih _ hlen⟩
      intro hy
      have := mem_of_mem_dedupFirst n _ hlen y hy
      have := List.of_mem_filter this
      simp at this

/-- C8: the effective wallet set of `configure_user` is exactly the
first-occurrence deduplication of the trimmed, lower-cased,
separator-split token stream, capped at two entries — hence duplicate-free and
of length at most 2. -/
theorem effective_wallets_spec (entries : List String) :
    Monitor.effective_wallets entries =
      (Monitor.dedupFirst (Monitor.tokensOf entries)).take 2 ∧
    (Monitor.effective_wallets entries).Nodup ∧
    (Monitor.effective_wallets entries).length ≤ 2 := by
  have hnorm : Monitor.normalize_addresses entries =
      Monitor.dedupFirst (Monitor.tokensOf entries) := by
    have h1 := normalize_addresses_eq_insertAll entries []
    have h2 := insertAll_eq_dedupFirst (Monitor.tokensOf entries) []
    have h3 : (Monitor.tokensOf entries).filter (fun t => t ∉ ([] : List String)) =
        Monitor.tokensOf entries := by
      apply List.filter_eq_self.mpr
      intro a _
      simp
    rw [Monitor.normalize_addresses, h1, h2, h3, List.nil_append]
  refine ⟨by rw [Monitor.effective_wallets, hnorm], ?_, ?_⟩
  · rw [Monitor.effective_wallets, hnorm]
    exact List.Nodup.sublist (List.take_sublist _ _)
      (nodup_dedupFirst _ _ (le_refl _))
  · rw [Monitor.effective_wallets]
    exact List.length_take_le _ _

/-- `start` on a live thread only resets the skip-snapshot flag. -/
theorem start_alive (nextT : ℕ) (m : Monitor.UserMonitorState)
    (h : m.threadAlive = true) :
    Monitor.start nextT m =
      ({ m with skipSnapshotOnStart := false }, nextT, []) := by
  simp [Monitor.start, h]

/-- `start` on a dead thread with wallets and a channel spawns a fresh
thread. -/
theorem start_spawn (nextT : ℕ) (m : Monitor.UserMonitorState)
    (h : m.threadAlive = false)
    (hw : m.config.wallet_addresses ≠ [])
    (hc : Monitor.hasTelegram m.config = true ∨ Monitor.hasWecom m.config = true) :
    Monitor.start nextT m =
      ({ m with
          skipSnapshotOnStart := false,
          threadId := Option.some nextT,
          threadAlive := true,
          moduleLoaded := false }, nextT + 1,
        [Monitor.MonAction.started m.config.user_id nextT]) := by
  have hcp : ¬¬(Monitor.hasTelegram m.config = true ∨
      Monitor.hasWecom m.config = true) := not_not_intro hc
  simp [Monitor.start, h, hw, hcp]

/-- The normalized language is one of the two supported tags. -/
theorem normLang_cases (l : String) :
    Monitor.normLang l = "zh" ∨ Monitor.normLang l = "en" := by
  unfold Monitor.normLang
  by_cases h1 : PyStr.pyLower (if l = "" then "zh" else l) = "zh"
  · left
    simp [h1]
  · by_cases h2 : PyStr.pyLower (if l = "" then "zh" else l) = "en"
    · right
      simp [h1, h2]
    · left
      simp [h1, h2]

/-- Language normalization is idempotent. -/
theorem normLang_idem (l : String) :
    Monitor.normLang (Monitor.normLang l) = Monitor.normLang l := by
  rcases normLang_cases l with h | h <;> rw [h] <;> decide

/-- `start` never changes the stored config. -/
theorem start_config (n : ℕ) (st : Monitor.UserMonitorState) :
    (Monitor.start n st).1.config = st.config := by
  simp only [Monitor.start]
  split_ifs <;> rfl

/-- Whenever `start` runs on a state with wallets and Telegram credentials,
the resulting worker is alive, keeps its config, and (if its module is not
loaded) has a cleared skip-snapshot flag. -/
theorem start_triple (n : ℕ) (st : Monitor.UserMonitorState)
    (hw : st.config.wallet_addresses ≠ [])
    (htg : Monitor.hasTelegram st.config = true) :
    (Monitor.start n st).1.config = st.config ∧
    (Monitor.start n st).1.threadAlive = true ∧
    ((Monitor.start n st).1.moduleLoaded = false →
      (Monitor.start n st).1.skipSnapshotOnStart = false) := by
  by_cases h : st.threadAlive
  · rw [start_alive n st h]
    exact ⟨rfl, h, fun _ => rfl⟩
  · rw [start_spawn n st (by simpa using h) hw (Or.inl htg)]
    exact ⟨rfl, rfl, fun _ => rfl⟩

/-- `start` on a startable state always leaves a live thread. -/
theorem start_alive_true (n : ℕ) (st : Monitor.UserMonitorState)
    (hw : st.config.wallet_addresses ≠ [])
    (htg : Monitor.hasTelegram st.config = true) :
    (Monitor.start n st).1.threadAlive = true :=
  (start_triple n st hw htg).2.1

/-- After `update` with a non-empty token, chat id and wallet list, the
monitor holds exactly the new config, its thread is alive, and an unloaded
module implies a cleared skip-snapshot flag. -/
theorem update_post (nextT : ℕ) (m : Monitor.UserMonitorState)
    (token chat : String) (wallets : List String) (language : String)
    (we : Bool) (wh : Option String) (mts : List String)
    (htok : token ≠ "") (hchat : chat ≠ "") (hw : wallets ≠ []) :
    (Monitor.update nextT m token chat wallets language we wh mts).1.config =
      ⟨m.config.user_id, token, chat, wallets, Monitor.normLang language, we,
        wh, mts⟩ ∧
    (Monitor.update nextT m token chat wallets language we wh mts).1.threadAlive =
      true ∧
    ((Monitor.update nextT m token chat wallets language we wh mts).1.moduleLoaded =
        false →
      (Monitor.update nextT m token chat wallets language we wh
        mts).1.skipSnapshotOnStart = false) := by
  by_cases hr : (token ≠ m.config.telegram_bot_token ∨
      chat ≠ m.config.telegram_chat_id ∨ wallets ≠ m.config.wallet_addresses ∨
      we ≠ m.config.wecom_enabled ∨ wh ≠ m.config.wecom_webhook_url ∨
      mts ≠ m.config.wecom_mentions)
  · have hr' := eq_true hr
    simp only [Monitor.update, hr', if_true, not_true_eq_false, false_and,
      if_false, ite_self]
    refine start_triple _ _ ?_ ?_
    · simp only [Monitor.stop]
      exact hw
    · simp [Monitor.stop, Monitor.hasTelegram, htok, hchat]
  · push_neg at hr
    obtain ⟨e1, e2, e3, e4, e5, e6⟩ := hr
    subst e1
    subst e2
    subst e3
    subst e4
    subst e5
    subst e6
    have hr' : (m.config.telegram_bot_token ≠ m.config.telegram_bot_token ∨
        m.config.telegram_chat_id ≠ m.config.telegram_chat_id ∨
        m.config.wallet_addresses ≠ m.config.wallet_addresses ∨
        m.config.wecom_enabled ≠ m.config.wecom_enabled ∨
        m.config.wecom_webhook_url ≠ m.config.wecom_webhook_url ∨
        m.config.wecom_mentions ≠ m.config.wecom_mentions) = False := by simp
    have hss : ((Monitor.normLang language ≠ m.config.language ∨
        m.config.wecom_enabled = true ∨ m.config.telegram_chat_id ≠ "") ∧
        m.config.wallet_addresses ≠ []) := ⟨Or.inr (Or.inr hchat), hw⟩
    by_cases hmod : m.moduleLoaded
    · by_cases halive : m.threadAlive
      · simp only [Monitor.update, hr', if_false, hmod, if_true, halive,
          not_false_eq_true, true_and, hss, and_true, not_true_eq_false]
        intro hfalse
        exact absurd hfalse (by simp)
      · simp only [Monitor.update, hr', if_false, hmod, if_true, halive,
          not_false_eq_true, true_and, hss, and_true, not_true_eq_false,
          Bool.false_eq_true, ite_true, ite_false]
        refine start_triple _ _ hw ?_
        simp [Monitor.hasTelegram, htok, hchat]
    · have hw' := eq_true hw
      have htok' := eq_true htok
      have hchat' := eq_true hchat
      simp only [Monitor.update, hr', if_false, hmod, not_false_eq_true,
        true_and, and_true, not_true_eq_false, Bool.false_eq_true,
        ite_true, ite_false, hw', if_true, or_true, true_or, start_alive_true,
        Monitor.hasTelegram, htok', hchat', decide_eq_true_eq, start_config]
      refine (start_triple _ _ ?_ ?_).2.2
      · exact hw
      · simp [Monitor.hasTelegram, htok, hchat]

/-- `update` with values identical to the stored config of a live monitor
returns the state unchanged, emitting at most a forced snapshot. -/
theorem update_noop (nextT : ℕ) (m : Monitor.UserMonitorState)
    (token chat : String) (wallets : List String) (language : String)
    (we : Bool) (wh : Option String) (mts : List String)
    (htok : m.config.telegram_bot_token = token)
    (hchat : m.config.telegram_chat_id = chat)
    (hwal : m.config.wallet_addresses = wallets)
    (hlang : m.config.language = Monitor.normLang language)
    (hwe : m.config.wecom_enabled = we)
    (hwh : m.config.wecom_webhook_url = wh)
    (hmts : m.config.wecom_mentions = mts)
    (halive : m.threadAlive = true)
    (hinv : m.moduleLoaded = false → m.skipSnapshotOnStart = false)
    (hchat' : chat ≠ "") (hw : wallets ≠ []) :
    Monitor.update nextT m token chat wallets language we wh mts =
      (m, nextT,
        if m.moduleLoaded then [Monitor.MonAction.snapshot m.config.user_id]
        else []) := by
  obtain ⟨⟨uid, tok0, chat0, w0, lang0, we0, wh0, mts0⟩, tid, al, mod, skip⟩ := m
  simp only at htok hchat hwal hlang hwe hwh hmts halive hinv
  subst htok
  subst hchat
  subst hwal
  subst hlang
  subst hwe
  subst hwh
  subst hmts
  subst halive
  have hr' : (tok0 ≠ tok0 ∨ chat0 ≠ chat0 ∨ w0 ≠ w0 ∨ we0 ≠ we0 ∨
      wh0 ≠ wh0 ∨ mts0 ≠ mts0) = False := by simp
  have hlc : (Monitor.normLang language ≠ Monitor.normLang language) = False := by
    simp
  have hchat'' := eq_true hchat'
  have hw' := eq_true hw
  cases mod with
  | true =>
    simp only [Monitor.update, hr', hlc, if_false, not_false_eq_true, true_and,
      false_or, hchat'', hw', or_true, true_or, and_true, if_true, ite_true,
      ite_false, not_true_eq_false]
  | false =>
    have hskip : skip = false := hinv rfl
    subst hskip
    simp only [Monitor.update, hr', hlc, if_false, not_false_eq_true, true_and,
      false_or, hchat'', hw', or_true, true_or, and_true, if_true, ite_true,
      ite_false, not_true_eq_false, Monitor.start, Bool.false_eq_true]

/-- After a `configure_user` call with complete effective inputs, the tenant
has a registered monitor holding the normalized config with a live thread. -/
theorem configure_post (dt : String) (s : Monitor.RegistryState) (uid : ℕ)
    (inp : Monitor.ConfigureInput)
    (ht : Monitor.effToken dt inp ≠ "") (hc : Monitor.effChat inp ≠ "")
    (hw : Monitor.effective_wallets inp.wallet_addresses ≠ []) :
    ∃ m1 : Monitor.UserMonitorState,
      (Monitor.configure_user dt s uid inp).1.monitors uid = Option.some m1 ∧
      (Monitor.configure_user dt s uid inp).1.nextThread =
        (Monitor.configure_user dt s uid inp).1.nextThread ∧
      m1.config.telegram_bot_token = Monitor.effToken dt inp ∧
      m1.config.telegram_chat_id = Monitor.effChat inp ∧
      m1.config.wallet_addresses = Monitor.effective_wallets inp.wallet_addresses ∧
      m1.config.language = Monitor.normLang inp.language ∧
      m1.config.wecom_enabled = Monitor.effWecomActive inp ∧
      m1.config.wecom_webhook_url = Monitor.effWebhook inp ∧
      m1.config.wecom_mentions = Monitor.effMentions inp ∧
      m1.threadAlive = true ∧
      (m1.moduleLoaded = false → m1.skipSnapshotOnStart = false) := by
  have hcond : ¬(Monitor.effToken dt inp = "" ∨ Monitor.effChat inp = "" ∨
      Monitor.effective_wallets inp.wallet_addresses = []) := by
    push_neg
    exact ⟨ht, hc, hw⟩
  cases hmon : s.monitors uid with
  | some existing =>
    have U := update_post s.nextThread existing (Monitor.effToken dt inp)
      (Monitor.effChat inp) (Monitor.effective_wallets inp.wallet_addresses)
      (Monitor.normLang inp.language) (Monitor.effWecomActive inp)
      (Monitor.effWebhook inp) (Monitor.effMentions inp) ht hc hw
    refine ⟨_, ?_, rfl, ?_, ?_, ?_, ?_, ?_, ?_, ?_, U.2.1, U.2.2⟩
    · simp only [Monitor.configure_user, hmon, if_neg hcond, ite_true]
    · rw [U.1]
    · rw [U.1]
    · rw [U.1]
    · rw [U.1]
      exact normLang_idem inp.language
    · rw [U.1]
    · rw [U.1]
    · rw [U.1]
  | none =>
    have hstart := start_spawn s.nextThread
      ⟨⟨uid, Monitor.effToken dt inp, Monitor.effChat inp,
        Monitor.effective_wallets inp.wallet_addresses,
        Monitor.normLang inp.language, Monitor.effWecomActive inp,
        Monitor.effWebhook inp, Monitor.effMentions inp⟩,
        Option.none, false, false, false⟩
      rfl hw (Or.inl (by simp [Monitor.hasTelegram, ht, hc]))
    refine ⟨(Monitor.start s.nextThread
      ⟨⟨uid, Monitor.effToken dt inp, Monitor.effChat inp,
        Monitor.effective_wallets inp.wallet_addresses,
        Monitor.normLang inp.language, Monitor.effWecomActive inp,
        Monitor.effWebhook inp, Monitor.effMentions inp⟩,
        Option.none, false, false, false⟩).1, ?_, rfl, ?_, ?_, ?_, ?_, ?_, ?_,
      ?_, ?_, ?_⟩
    · simp only [Monitor.configure_user, hmon, if_neg hcond, ite_true]
    all_goals rw [hstart]
    all_goals simp

/-- Re-storing the config a follower already holds does not change it. -/
theorem fol_config_set_self (st : Follow.FollowerState) (cfg : Follow.FollowSettings)
    (h : st.config = Option.some cfg) :
    { st with config := Option.some cfg } = st := by
  obtain ⟨uid, c, q, tid, al, cl⟩ := st
  simp only at h
  subst h
  rfl

/-- `apply_config` of an enabled config with credentials leaves the follower
holding that config with a live thread. -/
theorem fapply_post (nextT : ℕ) (st : Follow.FollowerState)
    (cfg : Follow.FollowSettings) (hen : cfg.enabled = true)
    (hk : cfg.api_key.getD "" ≠ "") (hs : cfg.api_secret.getD "" ≠ "") :
    (Follow.apply_config nextT st cfg).1.config = Option.some cfg ∧
    (Follow.apply_config nextT st cfg).1.threadAlive = true := by
  by_cases halive : st.threadAlive <;>
    simp [Follow.apply_config, hen, hk, hs, halive]

/-- `apply_config` of the config a live follower already holds is a no-op. -/
theorem fapply_noop (nextT : ℕ) (st : Follow.FollowerState)
    (cfg : Follow.FollowSettings) (hen : cfg.enabled = true)
    (hk : cfg.api_key.getD "" ≠ "") (hs : cfg.api_secret.getD "" ≠ "")
    (hcfg : st.config = Option.some cfg) (halive : st.threadAlive = true) :
    Follow.apply_config nextT st cfg = (st, nextT, []) := by
  have hst := fol_config_set_self st cfg hcfg
  simp only [Follow.apply_config]
  rw [hst]
  simp [hen, hk, hs, halive]

/-- Re-running `BinanceFollowRegistry.configure_user` immediately with the
identical enabled config changes nothing and performs no side effect. -/
theorem c6fol (fs0 : Follow.FRegistryState) (cfg : Follow.FollowSettings)
    (hen : cfg.enabled = true) (hk : cfg.api_key.getD "" ≠ "")
    (hs : cfg.api_secret.getD "" ≠ "") :
    (Follow.fregistry_configure (Follow.fregistry_configure fs0 cfg).1 cfg).1 =
      (Follow.fregistry_configure fs0 cfg).1 ∧
    (Follow.fregistry_configure (Follow.fregistry_configure fs0 cfg).1 cfg).2 =
      [] := by
  have heval1 : Follow.fregistry_configure fs0 cfg =
      (⟨fun u => if u = cfg.user_id then
          Option.some (Follow.apply_config fs0.nextThread
            ((fs0.followers cfg.user_id).getD
              (Follow.freshFollower cfg.user_id)) cfg).1
        else fs0.followers u,
        (Follow.apply_config fs0.nextThread
          ((fs0.followers cfg.user_id).getD
            (Follow.freshFollower cfg.user_id)) cfg).2.1⟩,
        (Follow.apply_config fs0.nextThread
          ((fs0.followers cfg.user_id).getD
            (Follow.freshFollower cfg.user_id)) cfg).2.2) := by
    simp [Follow.fregistry_configure, hen]
  have hpost := fapply_post fs0.nextThread
    ((fs0.followers cfg.user_id).getD (Follow.freshFollower cfg.user_id)) cfg
    hen hk hs
  set r11 := (Follow.apply_config fs0.nextThread
    ((fs0.followers cfg.user_id).getD (Follow.freshFollower cfg.user_id))
    cfg).1 with hr11
  set s1 := (Follow.fregistry_configure fs0 cfg).1 with hs1
  have hm1 : s1.followers cfg.user_id = Option.some r11 := by
    rw [hs1, heval1]
    simp
  have hnoop := fapply_noop s1.nextThread r11 cfg hen hk hs hpost.1 hpost.2
  have heval2 : Follow.fregistry_configure s1 cfg =
      (⟨fun u => if u = cfg.user_id then Option.some r11 else s1.followers u,
        s1.nextThread⟩, []) := by
    simp only [Follow.fregistry_configure, hm1, Option.getD_some, hnoop, hen,
      not_true_eq_false, if_false, ite_false, ite_true]
  refine ⟨?_, ?_⟩
  · rw [heval2]
    have hfun : (fun u => if u = cfg.user_id then Option.some r11
        else s1.followers u) = s1.followers := by
      funext u
      by_cases h : u = cfg.user_id
      · subst h
        rw [if_pos rfl, hm1]
      · rw [if_neg h]
    rw [hfun]
  · rw [heval2]

/-- Re-running `MonitorRegistry.configure_user` immediately with identical
complete input leaves the registry state unchanged and neither starts nor
stops any thread. -/
theorem c6mon (dt : String) (s0 : Monitor.RegistryState) (uid : ℕ)
    (inp : Monitor.ConfigureInput)
    (ht : Monitor.effToken dt inp ≠ "") (hc : Monitor.effChat inp ≠ "")
    (hw : Monitor.effective_wallets inp.wallet_addresses ≠ []) :
    (Monitor.configure_user dt (Monitor.configure_user dt s0 uid inp).1 uid
      inp).1 = (Monitor.configure_user dt s0 uid inp).1 ∧
    ∀ a ∈ (Monitor.configure_user dt (Monitor.configure_user dt s0 uid inp).1
      uid inp).2,
      (∀ u t, a ≠ Monitor.MonAction.started u t) ∧
      (∀ u, a ≠ Monitor.MonAction.stopped u) := by
  have hcond : ¬(Monitor.effToken dt inp = "" ∨ Monitor.effChat inp = "" ∨
      Monitor.effective_wallets inp.wallet_addresses = []) := by
    push_neg
    exact ⟨ht, hc, hw⟩
  obtain ⟨m1, hm1, -, f1, f2, f3, f4, f5, f6, f7, halive, hinv⟩ :=
    configure_post dt s0 uid inp ht hc hw
  set s1 := (Monitor.configure_user dt s0 uid inp).1 with hs1
  have hlang2 : m1.config.language =
      Monitor.normLang (Monitor.normLang inp.language) := by
    rw [f4, normLang_idem]
  have hupd := update_noop s1.nextThread m1 (Monitor.effToken dt inp)
    (Monitor.effChat inp) (Monitor.effective_wallets inp.wallet_addresses)
    (Monitor.normLang inp.language) (Monitor.effWecomActive inp)
    (Monitor.effWebhook inp) (Monitor.effMentions inp) f1 f2 f3 hlang2 f5 f6 f7
    halive hinv hc hw
  have heval2 : Monitor.configure_user dt s1 uid inp =
      (⟨fun u => if u = uid then Option.some m1 else s1.monitors u,
        s1.nextThread⟩,
        if m1.moduleLoaded then [Monitor.MonAction.snapshot m1.config.user_id]
        else []) := by
    simp only [Monitor.configure_user, hm1, if_neg hcond, hupd, ite_true,
      ite_false]
  refine ⟨?_, ?_⟩
  · rw [heval2]
    have hfun : (fun u => if u = uid then Option.some m1 else s1.monitors u) =
        s1.monitors := by
      funext u
      by_cases h : u = uid
      · subst h
        rw [if_pos rfl, hm1]
      · rw [if_neg h]
    rw [hfun]
  · rw [heval2]
    cases hmod : m1.moduleLoaded <;> simp

/-- C6: for every tenant and complete configuration, a second `configure` with
identical input immediately after a first is a no-op: the monitor registry
state (entry and thread identity) is unchanged and no thread is started or
stopped (at most a forced snapshot is sent); likewise the follower registry
state is unchanged with no side effect at all. -/
theorem configure_twice_noop :
    (∀ (dt : String) (s0 : Monitor.RegistryState) (uid : ℕ)
      (inp : Monitor.ConfigureInput),
      Monitor.effToken dt inp ≠ "" → Monitor.effChat inp ≠ "" →
      Monitor.effective_wallets inp.wallet_addresses ≠ [] →
      (Monitor.configure_user dt (Monitor.configure_user dt s0 uid inp).1 uid
        inp).1 = (Monitor.configure_user dt s0 uid inp).1 ∧
      ∀ a ∈ (Monitor.configure_user dt
        (Monitor.configure_user dt s0 uid inp).1 uid inp).2,
        (∀ u t, a ≠ Monitor.MonAction.started u t) ∧
        (∀ u, a ≠ Monitor.MonAction.stopped u)) ∧
    (∀ (fs0 : Follow.FRegistryState) (cfg : Follow.FollowSettings),
      cfg.enabled = true → cfg.api_key.getD "" ≠ "" →
      cfg.api_secret.getD "" ≠ "" →
      (Follow.fregistry_configure (Follow.fregistry_configure fs0 cfg).1
        cfg).1 = (Follow.fregistry_configure fs0 cfg).1 ∧
      (Follow.fregistry_configure (Follow.fregistry_configure fs0 cfg).1
        cfg).2 = []) :=
  ⟨fun dt s0 uid inp ht hc hw => c6mon dt s0 uid inp ht hc hw,
   fun fs0 cfg hen hk hs => c6fol fs0 cfg hen hk hs⟩

/-- Witness for C6: a concrete complete input configured twice from the empty
registries leaves both registries unchanged on the second call. -/
theorem configure_twice_noop_witness :
    Monitor.effToken "" Monitor.c6inp ≠ "" ∧
    Monitor.effChat Monitor.c6inp ≠ "" ∧
    Monitor.effective_wallets Monitor.c6inp.wallet_addresses ≠ [] ∧
    Follow.c6cfg.enabled = true ∧
    Follow.c6cfg.api_key.getD "" ≠ "" ∧
    Follow.c6cfg.api_secret.getD "" ≠ "" ∧
    (Monitor.configure_user ""
      (Monitor.configure_user "" Monitor.emptyRegistry 5 Monitor.c6inp).1 5
      Monitor.c6inp).1 =
      (Monitor.configure_user "" Monitor.emptyRegistry 5 Monitor.c6inp).1 ∧
    (Follow.fregistry_configure
      (Follow.fregistry_configure Follow.emptyFRegistry Follow.c6cfg).1
      Follow.c6cfg).1 =
      (Follow.fregistry_configure Follow.emptyFRegistry Follow.c6cfg).1 ∧
    (Follow.fregistry_configure
      (Follow.fregistry_configure Follow.emptyFRegistry Follow.c6cfg).1
      Follow.c6cfg).2 = [] := by
  have h1 : Monitor.effToken "" Monitor.c6inp ≠ "" := by decide
  have h2 : Monitor.effChat Monitor.c6inp ≠ "" := by decide
  have h3 : Monitor.effective_wallets Monitor.c6inp.wallet_addresses ≠ [] := by
    decide
  have h4 : Follow.c6cfg.enabled = true := rfl
  have h5 : Follow.c6cfg.api_key.getD "" ≠ "" := by decide
  have h6 : Follow.c6cfg.api_secret.getD "" ≠ "" := by decide
  have hm := configure_twice_noop.1 "" Monitor.emptyRegistry 5 Monitor.c6inp
    h1 h2 h3
  have hf := configure_twice_noop.2 Follow.emptyFRegistry Follow.c6cfg h4 h5 h6
  exact ⟨h1, h2, h3, h4, h5, h6, hm.1, hf.1, hf.2⟩

/-- C7: the monitor thread spawns only when the config has at least one wallet
address and at least one enabled channel (Telegram credentials or an enabled
WeCom webhook); otherwise `start` refuses (no thread, no action); and the
registry treats an incomplete configuration as "tenant not started" — it
returns normally with no registered monitor and no started thread. -/
theorem monitor_start_requires_channels :
    (∀ (nextT : ℕ) (m : Monitor.UserMonitorState),
      m.threadAlive = false →
      (m.config.wallet_addresses = [] ∨
        ¬(Monitor.hasTelegram m.config = true ∨
          Monitor.hasWecom m.config = true)) →
      (Monitor.start nextT m).1.threadAlive = false ∧
      (Monitor.start nextT m).1.threadId = m.threadId ∧
      (Monitor.start nextT m).2.2 = []) ∧
    (∀ (nextT : ℕ) (m : Monitor.UserMonitorState),
      (Monitor.start nextT m).2.2 ≠ [] →
      m.config.wallet_addresses ≠ [] ∧
        (Monitor.hasTelegram m.config = true ∨
          Monitor.hasWecom m.config = true)) ∧
    (∀ (dt : String) (s : Monitor.RegistryState) (uid : ℕ)
      (inp : Monitor.ConfigureInput),
      (Monitor.effToken dt inp = "" ∨ Monitor.effChat inp = "" ∨
        Monitor.effective_wallets inp.wallet_addresses = []) →
      (Monitor.configure_user dt s uid inp).1.monitors uid = Option.none ∧
      ∀ a ∈ (Monitor.configure_user dt s uid inp).2,
        ∀ u t, a ≠ Monitor.MonAction.started u t) := by
  refine ⟨?_, ?_, ?_⟩
  · intro nextT m halive h
    rcases h with h | h
    · simp [Monitor.start, halive, h]
    · simp [Monitor.start, halive, h]
  · intro nextT m hne
    by_cases halive : m.threadAlive
    · exfalso
      apply hne
      simp [Monitor.start, halive]
    · by_cases hwal : m.config.wallet_addresses = []
      · exfalso
        apply hne
        simp [Monitor.start, halive, hwal]
      · by_cases hch : Monitor.hasTelegram m.config = true ∨
          Monitor.hasWecom m.config = true
        · exact ⟨hwal, hch⟩
        · exfalso
          apply hne
          simp [Monitor.start, halive, hwal, hch]
  · intro dt s uid inp h
    cases hmon : s.monitors uid with
    | none =>
      simp only [Monitor.configure_user, if_pos h, hmon]
      simp [hmon]
    | some ex =>
      simp only [Monitor.configure_user, if_pos h, hmon]
      refine ⟨by simp, ?_⟩
      intro a ha u t
      simp only [Monitor.stop, List.mem_singleton] at ha
      subst ha
      simp

/-- Witness for C7: a monitor with no wallet addresses does not start, and a
configure input lacking a Telegram chat id leaves the tenant unregistered. -/
theorem monitor_start_requires_channels_witness :
    Monitor.c7m.threadAlive = false ∧
    (Monitor.c7m.config.wallet_addresses = [] ∨
      ¬(Monitor.hasTelegram Monitor.c7m.config = true ∨
        Monitor.hasWecom Monitor.c7m.config = true)) ∧
    (Monitor.start 0 Monitor.c7m).1.threadAlive = false ∧
    (Monitor.start 0 Monitor.c7m).2.2 = [] ∧
    (Monitor.effToken "" Monitor.c7inp = "" ∨
      Monitor.effChat Monitor.c7inp = "" ∨
      Monitor.effective_wallets Monitor.c7inp.wallet_addresses = []) ∧
    (Monitor.configure_user "" Monitor.emptyRegistry 5
      Monitor.c7inp).1.monitors 5 = Option.none := by
  have h1 : Monitor.c7m.threadAlive = false := rfl
  have h2 : Monitor.c7m.config.wallet_addresses = [] ∨
      ¬(Monitor.hasTelegram Monitor.c7m.config = true ∨
        Monitor.hasWecom Monitor.c7m.config = true) := Or.inl rfl
  have h3 : Monitor.effToken "" Monitor.c7inp = "" ∨
      Monitor.effChat Monitor.c7inp = "" ∨
      Monitor.effective_wallets Monitor.c7inp.wallet_addresses = [] :=
    Or.inr (Or.inl (by decide))
  have happ := monitor_start_requires_channels
  exact ⟨h1, h2, (happ.1 0 Monitor.c7m h1 h2).1, (happ.1 0 Monitor.c7m h1 h2).2.2,
    h3, (happ.2.2 "" Monitor.emptyRegistry 5 Monitor.c7inp h3).1⟩
